import Mathlib

/-!
# virgil-crypto: password-based key derivation and the envelope cipher session

A shallow embedding of `lib/src/VirgilPBKDF.cxx` and `lib/src/VirgilCipherBase.cxx`.

* Byte arrays (`VirgilByteArray`, a `std::vector<unsigned char>`) are lists of naturals.
* A C++ function that may throw returns `Except VirgilCryptoError _`; a member function
  that mutates `impl_` and may throw returns the state reached together with the result,
  so the state left behind by a throwing call can be inspected.
* Operations of the primitive library (mbedTLS) and of collaborator classes whose code is
  not part of the embedded sources are fields of an environment record.
-/

namespace virgil.crypto

/-- A `VirgilByteArray`: a sequence of octets. -/
abbrev VirgilByteArray := List Nat

/-- The error kinds of `VirgilCryptoError` raised by the embedded sources, together with the
two further kinds of the error-handling design (malformed input, primitive failure) that only
collaborators raise. -/
inductive VirgilCryptoError where
  | InvalidArgument
  | InvalidState
  | NotSecure
  | UnsupportedAlgorithm
  | NotFoundPasswordRecipient
  | NotFoundKeyRecipient
  | InvalidFormat
  | SystemCrypto
  deriving DecidableEq, Repr

namespace foundation

/-- The enumeration `VirgilHash::Algorithm`. -/
inductive VirgilHash.Algorithm where
  | MD5
  | SHA1
  | SHA224
  | SHA256
  | SHA384
  | SHA512
  deriving DecidableEq, Repr

/-- The mbedTLS enumeration `mbedtls_md_type_t`. -/
inductive mbedtls_md_type_t where
  | MBEDTLS_MD_NONE
  | MBEDTLS_MD_MD2
  | MBEDTLS_MD_MD4
  | MBEDTLS_MD_MD5
  | MBEDTLS_MD_SHA1
  | MBEDTLS_MD_SHA224
  | MBEDTLS_MD_SHA256
  | MBEDTLS_MD_SHA384
  | MBEDTLS_MD_SHA512
  | MBEDTLS_MD_RIPEMD160
  deriving DecidableEq, Repr

/-- The enumeration `VirgilPBKDF::Algorithm` (a single variant). -/
inductive VirgilPBKDF.Algorithm where
  | PBKDF2
  deriving DecidableEq, Repr

/-- The constant `kIterationCount_Min` of `VirgilPBKDF.cxx`. -/
def kIterationCount_Min : Nat := 2048

/-- The constant `kAlgorithm_Default` of `VirgilPBKDF.cxx`. -/
def kAlgorithm_Default : VirgilPBKDF.Algorithm := VirgilPBKDF.Algorithm.PBKDF2

/-- The constant `kHashAlgorithm_Default` of `VirgilPBKDF.cxx`. -/
def kHashAlgorithm_Default : VirgilHash.Algorithm := VirgilHash.Algorithm.SHA384

/-- The largest value of `unsigned int`, `std::numeric_limits<unsigned int>::max()`. -/
def UINT_MAX : Nat := 4294967295

namespace internal

/-- The function `hash_to_md_type` of `VirgilPBKDF.cxx`. -/
def hash_to_md_type : VirgilHash.Algorithm → mbedtls_md_type_t
  | VirgilHash.Algorithm.MD5 => mbedtls_md_type_t.MBEDTLS_MD_MD5
  | VirgilHash.Algorithm.SHA1 => mbedtls_md_type_t.MBEDTLS_MD_SHA1
  | VirgilHash.Algorithm.SHA224 => mbedtls_md_type_t.MBEDTLS_MD_SHA224
  | VirgilHash.Algorithm.SHA256 => mbedtls_md_type_t.MBEDTLS_MD_SHA256
  | VirgilHash.Algorithm.SHA384 => mbedtls_md_type_t.MBEDTLS_MD_SHA384
  | VirgilHash.Algorithm.SHA512 => mbedtls_md_type_t.MBEDTLS_MD_SHA512

/-- The function `md_type_to_hash` of `VirgilPBKDF.cxx`; the `default` label throws. -/
def md_type_to_hash : mbedtls_md_type_t → Except VirgilCryptoError VirgilHash.Algorithm
  | mbedtls_md_type_t.MBEDTLS_MD_MD5 => Except.ok VirgilHash.Algorithm.MD5
  | mbedtls_md_type_t.MBEDTLS_MD_SHA1 => Except.ok VirgilHash.Algorithm.SHA1
  | mbedtls_md_type_t.MBEDTLS_MD_SHA224 => Except.ok VirgilHash.Algorithm.SHA224
  | mbedtls_md_type_t.MBEDTLS_MD_SHA256 => Except.ok VirgilHash.Algorithm.SHA256
  | mbedtls_md_type_t.MBEDTLS_MD_SHA384 => Except.ok VirgilHash.Algorithm.SHA384
  | mbedtls_md_type_t.MBEDTLS_MD_SHA512 => Except.ok VirgilHash.Algorithm.SHA512
  | _ => Except.error VirgilCryptoError.UnsupportedAlgorithm

end internal

/-- The two mbedTLS primitives `VirgilPBKDF::derive` calls. `mbedtls_md_get_size` is the digest
size of a message digest; `mbedtls_pkcs5_pbkdf2_hmac md pwd salt iterations keyLength` is `none`
when the primitive returns a non-zero status and otherwise the octets it writes to the output
buffer. -/
structure Mbedtls where
  mbedtls_md_get_size : mbedtls_md_type_t → Nat
  mbedtls_pkcs5_pbkdf2_hmac :
    mbedtls_md_type_t → VirgilByteArray → VirgilByteArray → Nat → Nat → Option VirgilByteArray

namespace VirgilPBKDF

/-- The fields of `VirgilPBKDF::Impl`. -/
structure Impl where
  salt : VirgilByteArray
  iterationCount : Nat
  algorithm : Algorithm
  hashAlgorithm : VirgilHash.Algorithm
  iterationCountMin : Nat
  checkRecommendations : Bool
  deriving DecidableEq, Repr

/-- The constructor `VirgilPBKDF(salt, iterationCount)`: the remaining fields take their
in-class initialisers. -/
def create (salt : VirgilByteArray) (iterationCount : Nat) : Impl :=
  { salt := salt
    iterationCount := iterationCount
    algorithm := kAlgorithm_Default
    hashAlgorithm := kHashAlgorithm_Default
    iterationCountMin := kIterationCount_Min
    checkRecommendations := true }

/-- The member `enableRecommendationsCheck`. -/
def enableRecommendationsCheck (impl : Impl) : Impl :=
  { impl with checkRecommendations := true }

/-- The member `disableRecommendationsCheck`. -/
def disableRecommendationsCheck (impl : Impl) : Impl :=
  { impl with checkRecommendations := false }

/-- The member `VirgilPBKDF::checkRecommendations(pwd)`. -/
def checkRecommendations (impl : Impl) (pwd : VirgilByteArray) : Except VirgilCryptoError Unit :=
  if !impl.checkRecommendations then
    Except.ok ()
  else if pwd.isEmpty then
    Except.error VirgilCryptoError.NotSecure
  else if impl.salt.isEmpty then
    Except.error VirgilCryptoError.NotSecure
  else if impl.iterationCount < impl.iterationCountMin then
    Except.error VirgilCryptoError.NotSecure
  else
    Except.ok ()

/-- The output buffer `VirgilByteArray result(size)` after the primitive has written `out`
into it: `size` octets, zero where the primitive wrote nothing. -/
def resultBuffer (size : Nat) (out : VirgilByteArray) : VirgilByteArray :=
  (List.range size).map (fun i => out.getD i 0)

/-- The member `VirgilPBKDF::derive(pwd, outSize)`. The cast `static_cast<unsigned int>` is a
reduction modulo `2^32`; setting up the HMAC context for one of the six digest types succeeds,
and the context gives the digest size. -/
def derive (env : Mbedtls) (impl : Impl) (pwd : VirgilByteArray) (outSize : Nat) :
    Except VirgilCryptoError VirgilByteArray :=
  match checkRecommendations impl pwd with
  | Except.error e => Except.error e
  | Except.ok () =>
    if outSize > UINT_MAX then
      Except.error VirgilCryptoError.InvalidArgument
    else
      let md := internal.hash_to_md_type impl.hashAlgorithm
      let adjustedOutSize :=
        if outSize > 0 then outSize % 2 ^ 32 else env.mbedtls_md_get_size md
      match impl.algorithm with
      | Algorithm.PBKDF2 =>
        match env.mbedtls_pkcs5_pbkdf2_hmac md pwd impl.salt impl.iterationCount
            adjustedOutSize with
        | none => Except.error VirgilCryptoError.InvalidArgument
        | some out => Except.ok (resultBuffer adjustedOutSize out)

end VirgilPBKDF

/-- The padding schemes of `VirgilSymmetricCipher::Padding` used by the cipher session. -/
inductive VirgilSymmetricCipher.Padding where
  | PKCS7
  deriving DecidableEq, Repr

/-- The mode a symmetric cipher object is bound to. -/
inductive VirgilSymmetricCipher.Mode where
  | uninitialized
  | encryption
  | decryption
  deriving DecidableEq, Repr

/-- Modelled from the spec: the class `VirgilSymmetricCipher`, the primitive-cipher collaborator
of section 6, as the session data model of section 3 describes it: a cipher object bound to a
serialized algorithm identifier (algorithm, IV and mode parameters), a key and a mode, with an
optional padding and the data of an unfinished message. A default-constructed object has an
empty identifier. -/
structure VirgilSymmetricCipher where
  algorithmId : VirgilByteArray
  key : VirgilByteArray
  mode : VirgilSymmetricCipher.Mode
  padding : Option VirgilSymmetricCipher.Padding
  pending : VirgilByteArray
  deriving DecidableEq, Repr

end foundation

open foundation

/-- A typed value of the custom-parameter bag of the metadata. -/
inductive VirgilCustomParam where
  | integer (value : Int)
  | string (value : String)
  | data (value : VirgilByteArray)
  deriving DecidableEq, Repr

/-- A key recipient entry of the metadata. -/
structure KeyRecipient where
  recipientId : VirgilByteArray
  keyEncryptionAlgorithm : VirgilByteArray
  encryptedKey : VirgilByteArray
  deriving DecidableEq, Repr

/-- A password recipient entry of the metadata. -/
structure PasswordRecipient where
  keyEncryptionAlgorithm : VirgilByteArray
  encryptedKey : VirgilByteArray
  deriving DecidableEq, Repr

/-- Modelled from the spec: the class `VirgilContentInfo` (ContentMetadata, sections 3 and 4.3).
The serializable record is the symmetric algorithm identifier (empty while unset), the wrapped
key recipients, the wrapped password recipients in insertion order and the custom parameters.
Beside it stand the recipients registered for encryption and not yet wrapped: `publicKeys`, the
recipient ids with their public keys, and `passwords`. -/
structure VirgilContentInfo where
  contentEncryptionAlgorithm : VirgilByteArray
  keyRecipients : List KeyRecipient
  passwordRecipients : List PasswordRecipient
  customParams : List (String × VirgilCustomParam)
  publicKeys : List (VirgilByteArray × VirgilByteArray) := []
  passwords : List VirgilByteArray := []
  deriving DecidableEq, Repr

/-- A call the cipher session makes that the properties below speak about: an entry into
`accomplishInitDecryption` and the two unwrap hooks with their arguments, in the order of the
C++ parameter lists. -/
inductive Call where
  | accomplishInitDecryption
  | doDecryptWithKey (algorithm encryptedKey privateKey privateKeyPassword : VirgilByteArray)
  | doDecryptWithPassword (encryptedKey encryptionAlgorithm password : VirgilByteArray)
  deriving DecidableEq, Repr

/-- A value together with the calls made while computing it. -/
structure Traced (α : Type) where
  calls : List Call
  value : α

/-- An unwrap function handed to the metadata: `(keyEncryptionAlgorithm, encryptedKey)` to the
content key, or an exception. -/
abbrev Unwrap := VirgilByteArray → VirgilByteArray → Traced (Except VirgilCryptoError VirgilByteArray)

namespace VirgilContentInfo

/-- Modelled from the spec: `isReadyForDecryption()`, true iff the symmetric-algorithm field is
set and at least one recipient list is non-empty. -/
def isReadyForDecryption (ci : VirgilContentInfo) : Bool :=
  !ci.contentEncryptionAlgorithm.isEmpty &&
    (!ci.keyRecipients.isEmpty || !ci.passwordRecipients.isEmpty)

/-- The member `getContentEncryptionAlgorithm()`. -/
def getContentEncryptionAlgorithm (ci : VirgilContentInfo) : VirgilByteArray :=
  ci.contentEncryptionAlgorithm

/-- Modelled from the spec: `decryptKeyRecipient(id, unwrapFn)`, which locates the entry with the
given id and invokes the unwrap function on it, and returns empty on no match. -/
def decryptKeyRecipient (ci : VirgilContentInfo) (recipientId : VirgilByteArray)
    (decrypt : Unwrap) : Traced (Except VirgilCryptoError VirgilByteArray) :=
  match ci.keyRecipients.find? (fun r => r.recipientId == recipientId) with
  | some r => decrypt r.keyEncryptionAlgorithm r.encryptedKey
  | none => { calls := [], value := Except.ok [] }

/-- The loop of `decryptPasswordRecipient`: each entry is tried in order until the unwrap
function succeeds on one; an entry on which it throws is passed over. -/
def tryPasswordRecipients (decrypt : Unwrap) :
    List PasswordRecipient → Traced (Except VirgilCryptoError VirgilByteArray)
  | [] => { calls := [], value := Except.ok [] }
  | r :: rest =>
    let attempt := decrypt r.keyEncryptionAlgorithm r.encryptedKey
    match attempt.value with
    | Except.ok key => { calls := attempt.calls, value := Except.ok key }
    | Except.error _ =>
      let later := tryPasswordRecipients decrypt rest
      { calls := attempt.calls ++ later.calls, value := later.value }

/-- Modelled from the spec: `decryptPasswordRecipient(unwrapFn)`, which tries each
password-recipient entry in insertion order until one succeeds, and returns empty on no match. -/
def decryptPasswordRecipient (ci : VirgilContentInfo) (decrypt : Unwrap) :
    Traced (Except VirgilCryptoError VirgilByteArray) :=
  tryPasswordRecipients decrypt ci.passwordRecipients

end VirgilContentInfo

/-- What the length-prefix lookahead at the front of a buffer reports. -/
inductive Lookahead where
  | needMoreData
  | tagMismatch
  | declaredLength (size : Nat)
  deriving DecidableEq, Repr

/-- The collaborators of the cipher session whose code is outside the embedded sources: the
structured-encoding reader (`contentInfoLookahead`, `contentInfoFromAsn1`), the checks of the
symmetric cipher on an algorithm identifier and on a key, and the two virtual unwrap hooks
`doDecryptWithKey(algorithm, encryptedKey, privateKey, privateKeyPassword)` and
`doDecryptWithPassword(encryptedKey, encryptionAlgorithm, password)`. -/
structure Collaborators where
  contentInfoLookahead : VirgilByteArray → Lookahead
  contentInfoFromAsn1 : VirgilByteArray → Except VirgilCryptoError VirgilContentInfo
  symmetricFromAsn1 : VirgilByteArray → Except VirgilCryptoError Unit
  symmetricCheckKey : VirgilByteArray → VirgilByteArray → Except VirgilCryptoError Unit
  symmetricIsSupportPadding : VirgilByteArray → Bool
  doDecryptWithKey : VirgilByteArray → VirgilByteArray → VirgilByteArray → VirgilByteArray →
    Except VirgilCryptoError VirgilByteArray
  doDecryptWithPassword : VirgilByteArray → VirgilByteArray → VirgilByteArray →
    Except VirgilCryptoError VirgilByteArray

namespace foundation.VirgilSymmetricCipher

/-- The default constructor `VirgilSymmetricCipher()`: an object with undefined algorithm. -/
def create : VirgilSymmetricCipher :=
  { algorithmId := [], key := [], mode := Mode.uninitialized, padding := none, pending := [] }

/-- Modelled from the spec: `fromAsn1` (deserialize), which binds the object to the algorithm
identifier read, or throws what the reader reports. -/
def fromAsn1 (env : Collaborators) (c : VirgilSymmetricCipher) (asn1 : VirgilByteArray) :
    Except VirgilCryptoError VirgilSymmetricCipher :=
  match env.symmetricFromAsn1 asn1 with
  | Except.error e => Except.error e
  | Except.ok () => Except.ok { c with algorithmId := asn1 }

/-- Modelled from the spec: `setDecryptionKey`, which binds the object to the key in decrypt
mode, or throws what the primitive reports for this algorithm and key. -/
def setDecryptionKey (env : Collaborators) (c : VirgilSymmetricCipher) (key : VirgilByteArray) :
    Except VirgilCryptoError VirgilSymmetricCipher :=
  match env.symmetricCheckKey c.algorithmId key with
  | Except.error e => Except.error e
  | Except.ok () => Except.ok { c with key := key, mode := Mode.decryption }

/-- The member `isSupportPadding()`, a property of the algorithm. -/
def isSupportPadding (env : Collaborators) (c : VirgilSymmetricCipher) : Bool :=
  env.symmetricIsSupportPadding c.algorithmId

/-- Modelled from the spec: `setPadding`. -/
def setPadding (c : VirgilSymmetricCipher) (padding : Padding) : VirgilSymmetricCipher :=
  { c with padding := some padding }

/-- Modelled from the spec: `reset`, which drops the data of an unfinished message. -/
def reset (c : VirgilSymmetricCipher) : VirgilSymmetricCipher :=
  { c with pending := [] }

/-- Modelled from the spec: `clear`, which returns the object to the default-constructed
state. -/
def clear (_c : VirgilSymmetricCipher) : VirgilSymmetricCipher :=
  create

end foundation.VirgilSymmetricCipher

namespace internal

/-- The states of the metadata filter (section 4.4). -/
inductive VirgilContentInfoFilter.State where
  | WaitingForData
  | ContentInfoFound
  | ContentInfoAbsent
  | ContentInfoBroken
  | Done
  deriving DecidableEq, Repr

/-- Modelled from the spec: the class `VirgilContentInfoFilter` (MetadataFilter, section 4.4).
While the filter waits for data `contentInfoData` is its internal buffer; once resolved,
`contentInfoData` holds the metadata record and `encryptedData` the ciphertext recovered. -/
structure VirgilContentInfoFilter where
  state : VirgilContentInfoFilter.State
  contentInfoData : VirgilByteArray
  encryptedData : VirgilByteArray
  deriving DecidableEq, Repr

namespace VirgilContentInfoFilter

/-- The initial filter: waiting for data with empty buffers. -/
def create : VirgilContentInfoFilter :=
  { state := State.WaitingForData, contentInfoData := [], encryptedData := [] }

/-- The member `reset()`: back to the initial filter. -/
def reset (_f : VirgilContentInfoFilter) : VirgilContentInfoFilter :=
  create

/-- The member `isWaitingData()`. -/
def isWaitingData (f : VirgilContentInfoFilter) : Bool :=
  f.state == State.WaitingForData

/-- The member `isContentInfoFound()`. -/
def isContentInfoFound (f : VirgilContentInfoFilter) : Bool :=
  f.state == State.ContentInfoFound

/-- The member `isContentInfoAbsent()`. -/
def isContentInfoAbsent (f : VirgilContentInfoFilter) : Bool :=
  f.state == State.ContentInfoAbsent

/-- The member `isContentInfoBroken()`. -/
def isContentInfoBroken (f : VirgilContentInfoFilter) : Bool :=
  f.state == State.ContentInfoBroken

/-- The member `isDone()`. -/
def isDone (f : VirgilContentInfoFilter) : Bool :=
  f.state == State.Done

/-- Modelled from the spec: the parse attempt of `filterData` on the buffered bytes. A tag
mismatch resolves to `ContentInfoAbsent` with the whole buffer as ciphertext; a declared length
the buffer covers leads to the full parse of the record, `ContentInfoFound` with the bytes after
the record as ciphertext on success and `ContentInfoBroken` on a parse error; otherwise the
filter keeps waiting. -/
def process (env : Collaborators) (buffer : VirgilByteArray) : VirgilContentInfoFilter :=
  match env.contentInfoLookahead buffer with
  | Lookahead.needMoreData =>
    { state := State.WaitingForData, contentInfoData := buffer, encryptedData := [] }
  | Lookahead.tagMismatch =>
    { state := State.ContentInfoAbsent, contentInfoData := [], encryptedData := buffer }
  | Lookahead.declaredLength size =>
    if buffer.length < size then
      { state := State.WaitingForData, contentInfoData := buffer, encryptedData := [] }
    else
      match env.contentInfoFromAsn1 (buffer.take size) with
      | Except.ok _ =>
        { state := State.ContentInfoFound, contentInfoData := buffer.take size,
          encryptedData := buffer.drop size }
      | Except.error _ =>
        { state := State.ContentInfoBroken, contentInfoData := buffer, encryptedData := [] }

/-- Modelled from the spec: `filterData(chunk)`, which while waiting for data appends the chunk
to the internal buffer and attempts the parse; in any other state it leaves the filter as it
is. -/
def filterData (env : Collaborators) (f : VirgilContentInfoFilter) (data : VirgilByteArray) :
    VirgilContentInfoFilter :=
  if f.isWaitingData then process env (f.contentInfoData ++ data) else f

/-- Modelled from the spec: `tellLastChunk()`. A filter still waiting for data resolves on what
is buffered: data that can never complete a metadata record is `ContentInfoAbsent` on a tag
mismatch and `ContentInfoBroken` otherwise. A waiting filter that has buffered nothing has
nothing to resolve on and is still waiting afterwards, which is the case
`filterAndSetupContentInfo` provides for after its test of `isContentInfoBroken()`. -/
def tellLastChunk (env : Collaborators) (f : VirgilContentInfoFilter) : VirgilContentInfoFilter :=
  if f.isWaitingData then
    let resolved := process env f.contentInfoData
    if resolved.isWaitingData then
      if f.contentInfoData.isEmpty then f
      else
        { state := State.ContentInfoBroken, contentInfoData := f.contentInfoData,
          encryptedData := [] }
    else resolved
  else f

/-- Modelled from the spec: `finish()`, the transition to `Done`. -/
def finish (f : VirgilContentInfoFilter) : VirgilContentInfoFilter :=
  { f with state := State.Done }

/-- Modelled from the spec: `popContentInfo()`, which returns the buffered metadata bytes and
leaves that buffer empty. -/
def popContentInfo (f : VirgilContentInfoFilter) : VirgilByteArray × VirgilContentInfoFilter :=
  (f.contentInfoData, { f with contentInfoData := [] })

/-- Modelled from the spec: `popEncryptedData()`, which returns the buffered ciphertext bytes
and leaves that buffer empty. -/
def popEncryptedData (f : VirgilContentInfoFilter) : VirgilByteArray × VirgilContentInfoFilter :=
  (f.encryptedData, { f with encryptedData := [] })

end VirgilContentInfoFilter

end internal

open internal

/-- The constant `kSymmetricCipher_Padding` of `VirgilCipherBase.cxx`. -/
def kSymmetricCipher_Padding : VirgilSymmetricCipher.Padding :=
  VirgilSymmetricCipher.Padding.PKCS7

/-- The random generator owned by a session: the personalisation bytes it was created with and
the number of draws made from it. -/
structure VirgilRandom where
  personalInfo : VirgilByteArray
  draws : Nat
  deriving DecidableEq, Repr

namespace VirgilCipherBase

/-- The fields of `VirgilCipherBase::Impl`. -/
structure Impl where
  random : VirgilRandom
  symmetricCipher : VirgilSymmetricCipher
  symmetricCipherKey : VirgilByteArray
  contentInfo : VirgilContentInfo
  contentInfoFilter : VirgilContentInfoFilter
  recipientId : VirgilByteArray
  privateKey : VirgilByteArray
  pwd : VirgilByteArray
  isInited : Bool
  deriving DecidableEq, Repr

/-- The bytes of the string "virgil::VirgilCipherBase". -/
def randomPersonalInfo : VirgilByteArray :=
  "virgil::VirgilCipherBase".toList.map Char.toNat

/-- The constructor `Impl()`: every member default-constructed, `isInited` false. -/
def Impl.create : Impl :=
  { random := { personalInfo := randomPersonalInfo, draws := 0 }
    symmetricCipher := VirgilSymmetricCipher.create
    symmetricCipherKey := []
    contentInfo :=
      { contentEncryptionAlgorithm := [], keyRecipients := [], passwordRecipients := [],
        customParams := [] }
    contentInfoFilter := VirgilContentInfoFilter.create
    recipientId := []
    privateKey := []
    pwd := []
    isInited := false }

/-- The outcome of a member function: the session state it leaves, the calls it made, and the
value returned or the exception thrown. -/
structure Outcome (α : Type) where
  state : Impl
  calls : List Call
  result : Except VirgilCryptoError α

/-- The member `isInited()`. -/
def isInited (s : VirgilCipherBase.Impl) : Bool :=
  s.isInited

/-- The member `setContentInfo(contentInfo)`: `impl_->contentInfo.fromAsn1(contentInfo)`. A
failed read throws and installs nothing. -/
def setContentInfo (env : Collaborators) (s : VirgilCipherBase.Impl) (contentInfo : VirgilByteArray) :
    Impl × Except VirgilCryptoError Unit :=
  match env.contentInfoFromAsn1 contentInfo with
  | Except.error e => (s, Except.error e)
  | Except.ok ci => ({ s with contentInfo := ci }, Except.ok ())

/-- Lines 264 to 272 of `accomplishInitDecryption`: the symmetric cipher is replaced by a fresh
object, which is then read from the metadata's algorithm identifier, keyed for decryption,
given the PKCS7 padding if the algorithm supports padding, and reset. A step that throws leaves
the cipher as the steps before it made it. -/
def initSymmetricCipherForDecryption (env : Collaborators) (s : VirgilCipherBase.Impl)
    (contentEncryptionKey : VirgilByteArray) : Impl × Except VirgilCryptoError Unit :=
  let s1 := { s with symmetricCipher := VirgilSymmetricCipher.create }
  match VirgilSymmetricCipher.fromAsn1 env s1.symmetricCipher
      s1.contentInfo.getContentEncryptionAlgorithm with
  | Except.error e => (s1, Except.error e)
  | Except.ok c2 =>
    let s2 := { s1 with symmetricCipher := c2 }
    match VirgilSymmetricCipher.setDecryptionKey env s2.symmetricCipher contentEncryptionKey with
    | Except.error e => (s2, Except.error e)
    | Except.ok c3 =>
      let s3 := { s2 with symmetricCipher := c3 }
      let s4 :=
        if s3.symmetricCipher.isSupportPadding env then
          { s3 with symmetricCipher := s3.symmetricCipher.setPadding kSymmetricCipher_Padding }
        else s3
      ({ s4 with symmetricCipher := s4.symmetricCipher.reset }, Except.ok ())

/-- The unwrap function `accomplishInitDecryption` hands to `decryptPasswordRecipient`: a call
of the hook `doDecryptWithPassword(encryptedKey, keyEncryptionAlgorithm, impl_->pwd)`. -/
def passwordUnwrap (env : Collaborators) (s : VirgilCipherBase.Impl) : Unwrap :=
  fun keyEncryptionAlgorithm encryptedKey =>
    { calls := [Call.doDecryptWithPassword encryptedKey keyEncryptionAlgorithm s.pwd]
      value := env.doDecryptWithPassword encryptedKey keyEncryptionAlgorithm s.pwd }

/-- The unwrap function `accomplishInitDecryption` hands to `decryptKeyRecipient`: a call of the
hook `doDecryptWithKey(algorithm, encryptedKey, impl_->privateKey, impl_->pwd)`. -/
def keyUnwrap (env : Collaborators) (s : VirgilCipherBase.Impl) : Unwrap :=
  fun algorithm encryptedKey =>
    { calls := [Call.doDecryptWithKey algorithm encryptedKey s.privateKey s.pwd]
      value := env.doDecryptWithKey algorithm encryptedKey s.privateKey s.pwd }

/-- The member `VirgilCipherBase::accomplishInitDecryption()`. -/
def accomplishInitDecryption (env : Collaborators) (s : VirgilCipherBase.Impl) : Outcome Unit :=
  if !s.contentInfo.isReadyForDecryption then
    { state := s, calls := [Call.accomplishInitDecryption],
      result := Except.error VirgilCryptoError.InvalidState }
  else if s.recipientId.isEmpty then
    -- Password decryption.
    let found := s.contentInfo.decryptPasswordRecipient (passwordUnwrap env s)
    match found.value with
    | Except.error e =>
      { state := s, calls := Call.accomplishInitDecryption :: found.calls,
        result := Except.error e }
    | Except.ok contentEncryptionKey =>
      if contentEncryptionKey.isEmpty then
        { state := s, calls := Call.accomplishInitDecryption :: found.calls,
          result := Except.error VirgilCryptoError.NotFoundPasswordRecipient }
      else
        let done := initSymmetricCipherForDecryption env s contentEncryptionKey
        { state := done.1, calls := Call.accomplishInitDecryption :: found.calls,
          result := done.2 }
  else
    -- Key decryption.
    let found := s.contentInfo.decryptKeyRecipient s.recipientId (keyUnwrap env s)
    match found.value with
    | Except.error e =>
      { state := s, calls := Call.accomplishInitDecryption :: found.calls,
        result := Except.error e }
    | Except.ok contentEncryptionKey =>
      if contentEncryptionKey.isEmpty then
        { state := s, calls := Call.accomplishInitDecryption :: found.calls,
          result := Except.error VirgilCryptoError.NotFoundKeyRecipient }
      else
        let done := initSymmetricCipherForDecryption env s contentEncryptionKey
        { state := done.1, calls := Call.accomplishInitDecryption :: found.calls,
          result := done.2 }

/-- The member `VirgilCipherBase::initDecryptionWithPassword(pwd)`. -/
def initDecryptionWithPassword (s : VirgilCipherBase.Impl) (pwd : VirgilByteArray) :
    Impl × Except VirgilCryptoError Unit :=
  if pwd.isEmpty then
    (s, Except.error VirgilCryptoError.InvalidArgument)
  else
    ({ s with pwd := pwd, isInited := true }, Except.ok ())

/-- The member `VirgilCipherBase::initDecryptionWithKey(recipientId, privateKey,
privateKeyPassword)`. -/
def initDecryptionWithKey (s : VirgilCipherBase.Impl) (recipientId privateKey privateKeyPassword : VirgilByteArray) :
    Impl × Except VirgilCryptoError Unit :=
  if recipientId.isEmpty then
    (s, Except.error VirgilCryptoError.InvalidArgument)
  else if privateKey.isEmpty then
    (s, Except.error VirgilCryptoError.InvalidArgument)
  else
    ({ s with recipientId := recipientId, privateKey := privateKey, pwd := privateKeyPassword,
              isInited := true }, Except.ok ())

/-- The filter after the first two steps of `filterAndSetupContentInfo`: `filterData` if the
filter is waiting for data, then `tellLastChunk` if this is the last chunk. -/
def filtered (env : Collaborators) (s : VirgilCipherBase.Impl) (encryptedData : VirgilByteArray)
    (isLastChunk : Bool) : VirgilContentInfoFilter :=
  let f1 :=
    if s.contentInfoFilter.isWaitingData then
      s.contentInfoFilter.filterData env encryptedData
    else s.contentInfoFilter
  if isLastChunk then f1.tellLastChunk env else f1

/-- The two statements `accomplishInitDecryption(); return popEncryptedData();` shared by the
`ContentInfoAbsent` and `ContentInfoFound` branches. -/
def accomplishAndPop (env : Collaborators) (s : VirgilCipherBase.Impl) : Outcome VirgilByteArray :=
  let done := accomplishInitDecryption env s
  match done.result with
  | Except.error e => { state := done.state, calls := done.calls, result := Except.error e }
  | Except.ok () =>
    let popped := done.state.contentInfoFilter.popEncryptedData
    { state := { done.state with contentInfoFilter := popped.2 }, calls := done.calls,
      result := Except.ok popped.1 }

/-- The member `VirgilCipherBase::filterAndSetupContentInfo(encryptedData, isLastChunk)`. -/
def filterAndSetupContentInfo (env : Collaborators) (s : VirgilCipherBase.Impl) (encryptedData : VirgilByteArray)
    (isLastChunk : Bool) : Outcome VirgilByteArray :=
  if s.contentInfoFilter.isDone then
    { state := s, calls := [], result := Except.ok encryptedData }
  else
    let s1 := { s with contentInfoFilter := filtered env s encryptedData isLastChunk }
    if s1.contentInfoFilter.isContentInfoAbsent then
      accomplishAndPop env { s1 with contentInfoFilter := s1.contentInfoFilter.finish }
    else if s1.contentInfoFilter.isContentInfoFound then
      let popped := s1.contentInfoFilter.popContentInfo
      let installed := setContentInfo env { s1 with contentInfoFilter := popped.2 } popped.1
      match installed.2 with
      | Except.error e => { state := installed.1, calls := [], result := Except.error e }
      | Except.ok () =>
        accomplishAndPop env
          { installed.1 with contentInfoFilter := installed.1.contentInfoFilter.finish }
    else if s1.contentInfoFilter.isContentInfoBroken then
      { state := s1, calls := [], result := Except.error VirgilCryptoError.InvalidArgument }
    else if isLastChunk then
      let done := accomplishInitDecryption env s1
      match done.result with
      | Except.error e => { state := done.state, calls := done.calls, result := Except.error e }
      | Except.ok () =>
        -- Still waiting for data to be filtered.
        { state := done.state, calls := done.calls, result := Except.ok [] }
    else
      -- Still waiting for data to be filtered.
      { state := s1, calls := [], result := Except.ok [] }

/-- The function `VirgilByteArrayUtils::zeroize`: every octet overwritten with zero. -/
def zeroize (array : VirgilByteArray) : VirgilByteArray :=
  array.map (fun _ => 0)

/-- The member `clear()` of `std::vector`. -/
def clearBytes (_array : VirgilByteArray) : VirgilByteArray :=
  []

/-- The octets the storage of each of the three secret buffers holds at the moment the
`clear()` of the vector releases it. -/
structure Released where
  symmetricCipherKey : VirgilByteArray
  privateKey : VirgilByteArray
  pwd : VirgilByteArray
  deriving DecidableEq, Repr

/-- The member `VirgilCipherBase::clear()`, statement by statement: the state it leaves and,
for each of the three secret buffers, what the buffer holds when its `clear()` releases it. -/
def clearReleasing (s : VirgilCipherBase.Impl) : VirgilCipherBase.Impl × Released :=
  let s1 := { s with isInited := false }
  let s2 := { s1 with symmetricCipher := s1.symmetricCipher.clear }
  let s3 := { s2 with recipientId := clearBytes s2.recipientId }
  let s4 := { s3 with contentInfoFilter := s3.contentInfoFilter.reset }
  let s5 := { s4 with symmetricCipherKey := zeroize s4.symmetricCipherKey }
  let s6 := { s5 with privateKey := zeroize s5.privateKey }
  let s7 := { s6 with pwd := zeroize s6.pwd }
  let s8 := { s7 with symmetricCipherKey := clearBytes s7.symmetricCipherKey }
  let s9 := { s8 with privateKey := clearBytes s8.privateKey }
  let s10 := { s9 with pwd := clearBytes s9.pwd }
  (s10,
    { symmetricCipherKey := s7.symmetricCipherKey, privateKey := s8.privateKey, pwd := s9.pwd })

/-- The state the member `VirgilCipherBase::clear()` leaves. -/
def clear (s : VirgilCipherBase.Impl) : Impl :=
  (clearReleasing s).1

end VirgilCipherBase

/-! ## Serialization of the key-derivation parameters -/

namespace foundation

namespace asn1

/-- Modelled from the spec: an element of the structured encoding that the reader and writer
collaborator of section 6 exchanges: the header of a sequence with the length of its content, an
object identifier, an integer (a C++ `int`) and an octet string. -/
inductive Asn1Element where
  | sequence (length : Nat)
  | oid (value : VirgilByteArray)
  | integer (value : Int)
  | octetString (value : VirgilByteArray)
  deriving DecidableEq, Repr

/-- Modelled from the spec: the class `VirgilAsn1Writer`. The encoding is written from the end of
the buffer towards its start, so an element written later stands before the elements written
earlier. -/
structure VirgilAsn1Writer where
  elements : List Asn1Element
  deriving DecidableEq, Repr

/-- Modelled from the spec: the class `VirgilAsn1Reader`, the elements still to be read. -/
structure VirgilAsn1Reader where
  elements : List Asn1Element
  deriving DecidableEq, Repr

end asn1

open asn1

/-- What `VirgilPBKDF::asn1Write` and `asn1Read` take from outside the embedded sources: the
number of octets the writer reports for an element, and the two mbedTLS lookups between message
digests and object identifiers, `none` standing for a non-zero status. -/
structure Encoding where
  encodedSize : Asn1Element → Nat
  mbedtls_oid_get_oid_by_md : mbedtls_md_type_t → Option VirgilByteArray
  mbedtls_oid_get_md_alg : VirgilByteArray → Option mbedtls_md_type_t

namespace asn1

/-- Modelled from the spec: a typed write; the element goes to the front and its encoded size is
returned. -/
def VirgilAsn1Writer.write (enc : Encoding) (w : VirgilAsn1Writer) (element : Asn1Element) :
    Nat × VirgilAsn1Writer :=
  (enc.encodedSize element, { elements := element :: w.elements })

/-- The member `writeOID`. -/
def VirgilAsn1Writer.writeOID (enc : Encoding) (w : VirgilAsn1Writer) (oid : VirgilByteArray) :
    Nat × VirgilAsn1Writer :=
  w.write enc (Asn1Element.oid oid)

/-- The member `writeSequence(len)`: the header of a sequence whose content is the `len` octets
written before. -/
def VirgilAsn1Writer.writeSequence (enc : Encoding) (w : VirgilAsn1Writer) (len : Nat) :
    Nat × VirgilAsn1Writer :=
  w.write enc (Asn1Element.sequence len)

/-- The member `writeInteger(int)`. -/
def VirgilAsn1Writer.writeInteger (enc : Encoding) (w : VirgilAsn1Writer) (value : Int) :
    Nat × VirgilAsn1Writer :=
  w.write enc (Asn1Element.integer value)

/-- The member `writeOctetString`. -/
def VirgilAsn1Writer.writeOctetString (enc : Encoding) (w : VirgilAsn1Writer)
    (value : VirgilByteArray) : Nat × VirgilAsn1Writer :=
  w.write enc (Asn1Element.octetString value)

/-- Modelled from the spec: `readSequence()`, which consumes a sequence header and returns the
length it declares; any other input is malformed. -/
def VirgilAsn1Reader.readSequence (r : VirgilAsn1Reader) :
    Except VirgilCryptoError (Nat × VirgilAsn1Reader) :=
  match r.elements with
  | Asn1Element.sequence length :: rest => Except.ok (length, { elements := rest })
  | _ => Except.error VirgilCryptoError.InvalidFormat

/-- Modelled from the spec: `readOID()`. -/
def VirgilAsn1Reader.readOID (r : VirgilAsn1Reader) :
    Except VirgilCryptoError (VirgilByteArray × VirgilAsn1Reader) :=
  match r.elements with
  | Asn1Element.oid value :: rest => Except.ok (value, { elements := rest })
  | _ => Except.error VirgilCryptoError.InvalidFormat

/-- Modelled from the spec: `readInteger()`. -/
def VirgilAsn1Reader.readInteger (r : VirgilAsn1Reader) :
    Except VirgilCryptoError (Int × VirgilAsn1Reader) :=
  match r.elements with
  | Asn1Element.integer value :: rest => Except.ok (value, { elements := rest })
  | _ => Except.error VirgilCryptoError.InvalidFormat

/-- Modelled from the spec: `readOctetString()`. -/
def VirgilAsn1Reader.readOctetString (r : VirgilAsn1Reader) :
    Except VirgilCryptoError (VirgilByteArray × VirgilAsn1Reader) :=
  match r.elements with
  | Asn1Element.octetString value :: rest => Except.ok (value, { elements := rest })
  | _ => Except.error VirgilCryptoError.InvalidFormat

end asn1

/-- The mbedTLS constant `MBEDTLS_OID_PKCS5_PBKDF2`, the octets of 1.2.840.113549.1.5.12. -/
def MBEDTLS_OID_PKCS5_PBKDF2 : VirgilByteArray :=
  [0x2a, 0x86, 0x48, 0x86, 0xf7, 0x0d, 0x01, 0x05, 0x0c]

/-- The cast `static_cast<int>` of an `unsigned int`: the value modulo `2^32` read as a
two's-complement 32-bit integer. -/
def castToInt (value : Nat) : Int :=
  if value % 2 ^ 32 < 2 ^ 31 then ((value % 2 ^ 32 : Nat) : Int)
  else ((value % 2 ^ 32 : Nat) : Int) - 2 ^ 32

/-- The cast `static_cast<unsigned int>` of an `int`: the value modulo `2^32`. -/
def castToUnsigned (value : Int) : Nat :=
  (value % 2 ^ 32).toNat

namespace VirgilPBKDF

/-- The member `VirgilPBKDF::asn1Write(asn1Writer, childWrittenBytes)`: the writer it leaves and
the length it returns, or the exception. -/
def asn1Write (enc : Encoding) (impl : Impl) (asn1Writer : VirgilAsn1Writer)
    (childWrittenBytes : Nat) : VirgilAsn1Writer × Except VirgilCryptoError Nat :=
  if impl.algorithm != Algorithm.PBKDF2 then
    (asn1Writer, Except.error VirgilCryptoError.UnsupportedAlgorithm)
  else
    -- Write prf
    match enc.mbedtls_oid_get_oid_by_md (internal.hash_to_md_type impl.hashAlgorithm) with
    | none => (asn1Writer, Except.error VirgilCryptoError.UnsupportedAlgorithm)
    | some oid =>
      let len := 0
      let w1 := asn1Writer.writeOID enc oid
      let len := len + w1.1
      let w2 := w1.2.writeSequence enc len
      let len := len + w2.1
      let w3 := w2.2.writeInteger enc (castToInt impl.iterationCount)
      let len := len + w3.1
      let w4 := w3.2.writeOctetString enc impl.salt
      let len := len + w4.1
      let w5 := w4.2.writeSequence enc len
      let len := len + w5.1
      let w6 := w5.2.writeOID enc MBEDTLS_OID_PKCS5_PBKDF2
      let len := len + w6.1
      let w7 := w6.2.writeSequence enc len
      let len := len + w7.1
      (w7.2, Except.ok (len + childWrittenBytes))

/-- The last two statements of `asn1Read`, after the PRF identifier has been resolved to a
digest type: `algorithm` is assigned, then `hashAlgorithm` unless `md_type_to_hash` throws. -/
def assignAlgorithms (impl : Impl) (md_type : mbedtls_md_type_t) :
    Impl × Except VirgilCryptoError Unit :=
  let impl1 := { impl with algorithm := Algorithm.PBKDF2 }
  match internal.md_type_to_hash md_type with
  | Except.error e => (impl1, Except.error e)
  | Except.ok hash => ({ impl1 with hashAlgorithm := hash }, Except.ok ())

/-- The part of `asn1Read` after the test of the key-derivation identifier: the PBKDF2
parameters and the PRF are read; every assignment to `impl_` made before an exception stays. -/
def readParams (enc : Encoding) (impl : Impl) (asn1Reader : VirgilAsn1Reader) :
    (Impl × VirgilAsn1Reader) × Except VirgilCryptoError Unit :=
  -- Read PBKDF2-Params
  match asn1Reader.readSequence with
  | Except.error e => ((impl, asn1Reader), Except.error e)
  | Except.ok (_, r1) =>
    match r1.readOctetString with
    | Except.error e => ((impl, r1), Except.error e)
    | Except.ok (salt, r2) =>
      let impl1 := { impl with salt := salt }
      match r2.readInteger with
      | Except.error e => ((impl1, r2), Except.error e)
      | Except.ok (count, r3) =>
        let impl2 := { impl1 with iterationCount := castToUnsigned count }
        -- Read PRF
        match r3.readSequence with
        | Except.error e => ((impl2, r3), Except.error e)
        | Except.ok (_, r4) =>
          match r4.readOID with
          | Except.error e => ((impl2, r4), Except.error e)
          | Except.ok (oid, r5) =>
            match enc.mbedtls_oid_get_md_alg oid with
            | none => ((impl2, r5), Except.error VirgilCryptoError.UnsupportedAlgorithm)
            | some md_type =>
              let assigned := assignAlgorithms impl2 md_type
              ((assigned.1, r5), assigned.2)

/-- The member `VirgilPBKDF::asn1Read(asn1Reader)`: the instance and the reader it leaves, and
whether it threw. `MBEDTLS_OID_CMP` compares the length and the octets of the identifier read
with the constant. -/
def asn1Read (enc : Encoding) (impl : Impl) (asn1Reader : VirgilAsn1Reader) :
    (Impl × VirgilAsn1Reader) × Except VirgilCryptoError Unit :=
  -- Read key derivation function algorithm identifier
  match asn1Reader.readSequence with
  | Except.error e => ((impl, asn1Reader), Except.error e)
  | Except.ok (_, r1) =>
    match r1.readOID with
    | Except.error e => ((impl, r1), Except.error e)
    | Except.ok (oid, r2) =>
      if oid != MBEDTLS_OID_PKCS5_PBKDF2 then
        ((impl, r2), Except.error VirgilCryptoError.UnsupportedAlgorithm)
      else
        readParams enc impl r2

/-- The default constructor `VirgilPBKDF()`: every field takes its in-class initialiser. -/
def createDefault : Impl :=
  create [] 0

end VirgilPBKDF

end foundation

/-! ## The cipher session: encryption side -/

namespace foundation

/-- The enumeration `VirgilSymmetricCipher::Algorithm`. -/
inductive VirgilSymmetricCipher.Algorithm where
  | AES_128_CBC
  | AES_128_GCM
  | AES_256_CBC
  | AES_256_GCM
  deriving DecidableEq, Repr

/-- The enumeration `VirgilPBE::Algorithm` named by `buildContentInfo`. -/
inductive VirgilPBE.Algorithm where
  | PKCS5
  | PKCS12
  deriving DecidableEq, Repr

/-- The identity of a `VirgilPBE` (PasswordCipher, section 3): scheme, salt and iteration
count. -/
structure VirgilPBE where
  algorithm : VirgilPBE.Algorithm
  salt : VirgilByteArray
  iterationCount : Nat
  deriving DecidableEq, Repr

namespace VirgilPBE

/-- The constant `VirgilPBE::kIterationCountMin` of `VirgilPBE.h`. -/
def kIterationCountMin : Nat := 1024

/-- The creation method `VirgilPBE::pkcs5(salt, iterationCount)`. -/
def pkcs5 (salt : VirgilByteArray) (iterationCount : Nat) : VirgilPBE :=
  { algorithm := Algorithm.PKCS5, salt := salt, iterationCount := iterationCount }

/-- The creation method `VirgilPBE::pkcs12(salt, iterationCount)`. -/
def pkcs12 (salt : VirgilByteArray) (iterationCount : Nat) : VirgilPBE :=
  { algorithm := Algorithm.PKCS12, salt := salt, iterationCount := iterationCount }

/-- The call `VirgilPBE::pkcs5(salt)`, the iteration count taking its default argument
`kIterationCountMin`. -/
def pkcs5Default (salt : VirgilByteArray) : VirgilPBE :=
  pkcs5 salt kIterationCountMin

/-- The call `VirgilPBE::pkcs12(salt)`, the iteration count taking its default argument
`kIterationCountMin`. -/
def pkcs12Default (salt : VirgilByteArray) : VirgilPBE :=
  pkcs12 salt kIterationCountMin

end VirgilPBE

end foundation

/-- The collaborators of the encryption side and of the two hook implementations, outside the
embedded sources: the entropy behind `VirgilRandom` (personalisation, number of the draw,
position), the symmetric cipher's identifier for an algorithm, its key length and IV size, its
check of an encryption key and the identifier that carries an IV; the asymmetric cipher
(`setPublicKey` with `toAsn1`, `setPublicKey` with `encrypt`, `setPrivateKey` with `decrypt`);
and the serialization, deserialization, `encrypt` and `decrypt` of `VirgilPBE`. -/
structure Primitives where
  entropy : VirgilByteArray → Nat → Nat → Nat
  symmetricAlgorithmId : VirgilSymmetricCipher.Algorithm → VirgilByteArray
  symmetricKeyLength : VirgilByteArray → Nat
  symmetricIvSize : VirgilByteArray → Nat
  symmetricCheckEncryptionKey : VirgilByteArray → VirgilByteArray → Except VirgilCryptoError Unit
  symmetricSetIV : VirgilByteArray → VirgilByteArray → Except VirgilCryptoError VirgilByteArray
  asymmetricToAsn1 : VirgilByteArray → Except VirgilCryptoError VirgilByteArray
  asymmetricEncrypt : VirgilByteArray → VirgilByteArray → Except VirgilCryptoError VirgilByteArray
  asymmetricDecrypt : VirgilByteArray → VirgilByteArray → VirgilByteArray →
    Except VirgilCryptoError VirgilByteArray
  pbeToAsn1 : VirgilPBE → VirgilByteArray
  pbeFromAsn1 : VirgilByteArray → Except VirgilCryptoError VirgilPBE
  pbeEncrypt : VirgilPBE → VirgilByteArray → VirgilByteArray →
    Except VirgilCryptoError VirgilByteArray
  pbeDecrypt : VirgilPBE → VirgilByteArray → VirgilByteArray →
    Except VirgilCryptoError VirgilByteArray

namespace VirgilRandom

/-- Modelled from the spec: `randomize(length) -> bytes`, one draw giving `length` octets. -/
def randomize (prim : Primitives) (r : VirgilRandom) (length : Nat) :
    VirgilByteArray × VirgilRandom :=
  ((List.range length).map (fun i => prim.entropy r.personalInfo r.draws i % 256),
   { r with draws := r.draws + 1 })

/-- Modelled from the spec: `randomize(min, max) -> uint`, one draw giving a number between
`min` and `max`. -/
def randomizeBetween (prim : Primitives) (r : VirgilRandom) (min max : Nat) :
    Nat × VirgilRandom :=
  (min + prim.entropy r.personalInfo r.draws 0 % (max - min + 1),
   { r with draws := r.draws + 1 })

end VirgilRandom

namespace foundation.VirgilSymmetricCipher

/-- Modelled from the spec: the constructor `VirgilSymmetricCipher(algorithm)`, an object bound
to the identifier of the algorithm, with no key and no mode. -/
def createFor (prim : Primitives) (algorithm : Algorithm) : VirgilSymmetricCipher :=
  { algorithmId := prim.symmetricAlgorithmId algorithm, key := [], mode := Mode.uninitialized,
    padding := none, pending := [] }

/-- The member `keyLength()`, a property of the algorithm. -/
def keyLength (prim : Primitives) (c : VirgilSymmetricCipher) : Nat :=
  prim.symmetricKeyLength c.algorithmId

/-- The member `ivSize()`, a property of the algorithm. -/
def ivSize (prim : Primitives) (c : VirgilSymmetricCipher) : Nat :=
  prim.symmetricIvSize c.algorithmId

/-- Modelled from the spec: `setEncryptionKey`, which binds the object to the key in encrypt
mode, or throws what the primitive reports for this algorithm and key. -/
def setEncryptionKey (prim : Primitives) (c : VirgilSymmetricCipher) (key : VirgilByteArray) :
    Except VirgilCryptoError VirgilSymmetricCipher :=
  match prim.symmetricCheckEncryptionKey c.algorithmId key with
  | Except.error e => Except.error e
  | Except.ok () => Except.ok { c with key := key, mode := Mode.encryption }

/-- Modelled from the spec: `setIV`, after which the serialized identifier carries the IV, or an
exception of the primitive. -/
def setIV (prim : Primitives) (c : VirgilSymmetricCipher) (iv : VirgilByteArray) :
    Except VirgilCryptoError VirgilSymmetricCipher :=
  match prim.symmetricSetIV c.algorithmId iv with
  | Except.error e => Except.error e
  | Except.ok algorithmId => Except.ok { c with algorithmId := algorithmId }

/-- Modelled from the spec: `toAsn1` (serialize), the identifier the object is bound to. -/
def toAsn1 (c : VirgilSymmetricCipher) : VirgilByteArray :=
  c.algorithmId

end foundation.VirgilSymmetricCipher

/-- The structure `VirgilContentInfo::EncryptionResult`. -/
structure EncryptionResult where
  encryptionAlgorithm : VirgilByteArray
  encryptedContent : VirgilByteArray
  deriving DecidableEq, Repr

namespace VirgilContentInfo

/-- The loop of `encryptKeyRecipients`: every registered public key is wrapped in order. -/
def wrapKeyRecipients (encrypt : VirgilByteArray → Except VirgilCryptoError EncryptionResult) :
    List (VirgilByteArray × VirgilByteArray) → Except VirgilCryptoError (List KeyRecipient)
  | [] => Except.ok []
  | (recipientId, publicKey) :: rest =>
    match encrypt publicKey with
    | Except.error e => Except.error e
    | Except.ok wrapped =>
      match wrapKeyRecipients encrypt rest with
      | Except.error e => Except.error e
      | Except.ok more =>
        Except.ok
          ({ recipientId := recipientId, keyEncryptionAlgorithm := wrapped.encryptionAlgorithm,
             encryptedKey := wrapped.encryptedContent } :: more)

/-- Modelled from the spec: `encryptKeyRecipients(wrapFn)`, which applies the wrap function to
every registered key recipient and replaces the stored public keys with
`(algorithmId, encryptedKey)` pairs; an exception of the wrap function leaves the metadata as it
was. -/
def encryptKeyRecipients (ci : VirgilContentInfo)
    (encrypt : VirgilByteArray → Except VirgilCryptoError EncryptionResult) :
    Except VirgilCryptoError VirgilContentInfo :=
  match wrapKeyRecipients encrypt ci.publicKeys with
  | Except.error e => Except.error e
  | Except.ok wrapped =>
    Except.ok { ci with keyRecipients := ci.keyRecipients ++ wrapped, publicKeys := [] }

/-- The loop of `encryptPasswordRecipients`: every registered password is wrapped in order; the
wrap function draws from the random generator it captured, whose state is threaded through. -/
def wrapPasswordRecipients
    (encrypt : VirgilRandom → VirgilByteArray →
      VirgilRandom × Except VirgilCryptoError EncryptionResult) :
    VirgilRandom → List VirgilByteArray →
      VirgilRandom × Except VirgilCryptoError (List PasswordRecipient)
  | random, [] => (random, Except.ok [])
  | random, password :: rest =>
    match encrypt random password with
    | (random1, Except.error e) => (random1, Except.error e)
    | (random1, Except.ok wrapped) =>
      match wrapPasswordRecipients encrypt random1 rest with
      | (random2, Except.error e) => (random2, Except.error e)
      | (random2, Except.ok more) =>
        (random2,
          Except.ok
            ({ keyEncryptionAlgorithm := wrapped.encryptionAlgorithm,
               encryptedKey := wrapped.encryptedContent } :: more))

/-- Modelled from the spec: `encryptPasswordRecipients(wrapFn)`, which applies the wrap function
to every registered password recipient and replaces the stored passwords with
`(algorithmId, encryptedKey)` pairs; an exception of the wrap function leaves the metadata as it
was. -/
def encryptPasswordRecipients (ci : VirgilContentInfo)
    (encrypt : VirgilRandom → VirgilByteArray →
      VirgilRandom × Except VirgilCryptoError EncryptionResult)
    (random : VirgilRandom) : VirgilRandom × Except VirgilCryptoError VirgilContentInfo :=
  match wrapPasswordRecipients encrypt random ci.passwords with
  | (random1, Except.error e) => (random1, Except.error e)
  | (random1, Except.ok wrapped) =>
    (random1,
      Except.ok { ci with passwordRecipients := ci.passwordRecipients ++ wrapped, passwords := [] })

/-- The member `setContentEncryptionAlgorithm(bytes)`. -/
def setContentEncryptionAlgorithm (ci : VirgilContentInfo) (algorithm : VirgilByteArray) :
    VirgilContentInfo :=
  { ci with contentEncryptionAlgorithm := algorithm }

end VirgilContentInfo

/-- The constant `kSymmetricCipher_Algorithm` of `VirgilCipherBase.cxx`. -/
def kSymmetricCipher_Algorithm : VirgilSymmetricCipher.Algorithm :=
  VirgilSymmetricCipher.Algorithm.AES_256_GCM

namespace VirgilCipherBase

/-- The member `VirgilCipherBase::initEncryption()`. A step that throws leaves the state as the
steps before it made it. -/
def initEncryption (env : Collaborators) (prim : Primitives) (s : VirgilCipherBase.Impl) :
    VirgilCipherBase.Impl × Except VirgilCryptoError Unit :=
  let s1 :=
    { s with symmetricCipher := VirgilSymmetricCipher.createFor prim kSymmetricCipher_Algorithm }
  let key := s1.random.randomize prim (s1.symmetricCipher.keyLength prim)
  let s2 := { s1 with symmetricCipherKey := key.1, random := key.2 }
  let symmetricCipherIV := s2.random.randomize prim (s2.symmetricCipher.ivSize prim)
  let s3 := { s2 with random := symmetricCipherIV.2 }
  match s3.symmetricCipher.setEncryptionKey prim s3.symmetricCipherKey with
  | Except.error e => (s3, Except.error e)
  | Except.ok c4 =>
    let s4 := { s3 with symmetricCipher := c4 }
    match s4.symmetricCipher.setIV prim symmetricCipherIV.1 with
    | Except.error e => (s4, Except.error e)
    | Except.ok c5 =>
      let s5 := { s4 with symmetricCipher := c5 }
      let s6 :=
        if s5.symmetricCipher.isSupportPadding env then
          { s5 with symmetricCipher := s5.symmetricCipher.setPadding kSymmetricCipher_Padding }
        else s5
      let s7 := { s6 with symmetricCipher := s6.symmetricCipher.reset }
      ({ s7 with isInited := true }, Except.ok ())

/-- The first wrap function of `buildContentInfo`: an asymmetric cipher with the public key set
gives `{ toAsn1(), encrypt(symmetricCipherKey) }`. -/
def keyWrap (prim : Primitives) (symmetricCipherKey : VirgilByteArray)
    (publicKey : VirgilByteArray) : Except VirgilCryptoError EncryptionResult :=
  match prim.asymmetricToAsn1 publicKey with
  | Except.error e => Except.error e
  | Except.ok algorithm =>
    match prim.asymmetricEncrypt publicKey symmetricCipherKey with
    | Except.error e => Except.error e
    | Except.ok encrypted =>
      Except.ok { encryptionAlgorithm := algorithm, encryptedContent := encrypted }

/-- The first three statements of the second wrap function of `buildContentInfo`: a salt of 16
random octets, an iteration count drawn between 3072 and 8192, and the `VirgilPBE` with the
algorithm PKCS5 built from them; the generator after the two draws comes with it. -/
def passwordCipher (prim : Primitives) (random : VirgilRandom) : VirgilPBE × VirgilRandom :=
  let salt := random.randomize prim 16
  let iterationCount := salt.2.randomizeBetween prim 3072 8192
  ({ algorithm := VirgilPBE.Algorithm.PKCS5, salt := salt.1, iterationCount := iterationCount.1 },
   iterationCount.2)

/-- The second wrap function of `buildContentInfo`: the `VirgilPBE` drawn for this recipient
gives `{ pbe.toAsn1(), pbe.encrypt(symmetricCipherKey, password) }`. -/
def passwordWrap (prim : Primitives) (symmetricCipherKey : VirgilByteArray)
    (random : VirgilRandom) (password : VirgilByteArray) :
    VirgilRandom × Except VirgilCryptoError EncryptionResult :=
  let pbe := passwordCipher prim random
  match prim.pbeEncrypt pbe.1 symmetricCipherKey password with
  | Except.error e => (pbe.2, Except.error e)
  | Except.ok encrypted =>
    (pbe.2,
      Except.ok { encryptionAlgorithm := prim.pbeToAsn1 pbe.1, encryptedContent := encrypted })

/-- The member `VirgilCipherBase::buildContentInfo()`. -/
def buildContentInfo (prim : Primitives) (s : VirgilCipherBase.Impl) :
    VirgilCipherBase.Impl × Except VirgilCryptoError Unit :=
  match s.contentInfo.encryptKeyRecipients (keyWrap prim s.symmetricCipherKey) with
  | Except.error e => (s, Except.error e)
  | Except.ok ci1 =>
    let s1 := { s with contentInfo := ci1 }
    match s1.contentInfo.encryptPasswordRecipients (passwordWrap prim s1.symmetricCipherKey)
        s1.random with
    | (random2, Except.error e) => ({ s1 with random := random2 }, Except.error e)
    | (random2, Except.ok ci2) =>
      let s2 := { s1 with random := random2, contentInfo := ci2 }
      ({ s2 with
          contentInfo :=
            s2.contentInfo.setContentEncryptionAlgorithm s2.symmetricCipher.toAsn1 },
        Except.ok ())

/-- The member `VirgilCipherBase::doDecryptWithKey(algorithm, encryptedKey, privateKey,
privateKeyPassword)`, the implementation of the hook in the base class. -/
def doDecryptWithKey (prim : Primitives)
    (_algorithm encryptedKey privateKey privateKeyPassword : VirgilByteArray) :
    Except VirgilCryptoError VirgilByteArray :=
  prim.asymmetricDecrypt privateKey privateKeyPassword encryptedKey

/-- The member `VirgilCipherBase::doDecryptWithPassword(encryptedKey, encryptionAlgorithm,
password)`, the implementation of the hook in the base class. -/
def doDecryptWithPassword (prim : Primitives)
    (encryptedKey encryptionAlgorithm password : VirgilByteArray) :
    Except VirgilCryptoError VirgilByteArray :=
  match prim.pbeFromAsn1 encryptionAlgorithm with
  | Except.error e => Except.error e
  | Except.ok pbe => prim.pbeDecrypt pbe encryptedKey password

/-- The member `getContentInfo()`, the serialization of the owned metadata by a writer
`toAsn1`. -/
def getContentInfo (toAsn1 : VirgilContentInfo → VirgilByteArray) (s : VirgilCipherBase.Impl) :
    VirgilByteArray :=
  toAsn1 s.contentInfo

end VirgilCipherBase

/-! ## The envelope: the payload path -/

/-- The collaborators of the payload path, outside the embedded sources: the symmetric cipher's
processing of a whole message (`update` and `finish`) for an algorithm identifier, a key and a
padding, in each direction, and the structured-encoding writer of the metadata. -/
structure Payload where
  symmetricEncrypt : VirgilByteArray → VirgilByteArray → Option VirgilSymmetricCipher.Padding →
    VirgilByteArray → Except VirgilCryptoError VirgilByteArray
  symmetricDecrypt : VirgilByteArray → VirgilByteArray → Option VirgilSymmetricCipher.Padding →
    VirgilByteArray → Except VirgilCryptoError VirgilByteArray
  contentInfoToAsn1 : VirgilContentInfo → VirgilByteArray

namespace foundation.VirgilSymmetricCipher

/-- Modelled from the spec: `update` on a whole message followed by `finish` (section 6), in the
direction of the mode the object is bound to; an object bound to no key throws. -/
def crypt (pay : Payload) (c : VirgilSymmetricCipher) (data : VirgilByteArray) :
    Except VirgilCryptoError VirgilByteArray :=
  match c.mode with
  | Mode.uninitialized => Except.error VirgilCryptoError.InvalidState
  | Mode.encryption => pay.symmetricEncrypt c.algorithmId c.key c.padding (c.pending ++ data)
  | Mode.decryption => pay.symmetricDecrypt c.algorithmId c.key c.padding (c.pending ++ data)

end foundation.VirgilSymmetricCipher

namespace VirgilCipher

/-- Modelled from the spec: `encrypt(P, R)` with the metadata embedded, the data flow for
encryption of section 2 on a session on which the caller has registered the recipients: the
session generates the content key and initializes the symmetric cipher, the plaintext goes
through the symmetric cipher, the metadata is built, and the serialized metadata is prepended to
the ciphertext. -/
def encrypt (env : Collaborators) (prim : Primitives) (pay : Payload)
    (s : VirgilCipherBase.Impl) (data : VirgilByteArray) :
    Except VirgilCryptoError VirgilByteArray :=
  match VirgilCipherBase.initEncryption env prim s with
  | (_, Except.error e) => Except.error e
  | (s1, Except.ok ()) =>
    match s1.symmetricCipher.crypt pay data with
    | Except.error e => Except.error e
    | Except.ok encryptedData =>
      match VirgilCipherBase.buildContentInfo prim s1 with
      | (_, Except.error e) => Except.error e
      | (s2, Except.ok ()) =>
        Except.ok (VirgilCipherBase.getContentInfo pay.contentInfoToAsn1 s2 ++ encryptedData)

/-- Modelled from the spec: the data flow for decryption of section 2 on a session whose
decryption identity is designated: the envelope goes through `filterAndSetupContentInfo` as one
last chunk, and the ciphertext that call returns goes through the symmetric cipher. -/
def decrypt (env : Collaborators) (pay : Payload) (s : VirgilCipherBase.Impl)
    (encryptedData : VirgilByteArray) : Except VirgilCryptoError VirgilByteArray :=
  let setup := VirgilCipherBase.filterAndSetupContentInfo env s encryptedData true
  match setup.result with
  | Except.error e => Except.error e
  | Except.ok payload => setup.state.symmetricCipher.crypt pay payload

end VirgilCipher

/-! ## Notions used to state the properties -/

/-- The lookup `accomplishInitDecryption` selects by the stored identity: the password-recipient
lookup when the stored recipient id is empty, the key-recipient lookup otherwise. -/
def unwrapContentKey (env : Collaborators) (s : VirgilCipherBase.Impl) :
    Traced (Except VirgilCryptoError VirgilByteArray) :=
  if s.recipientId.isEmpty then
    s.contentInfo.decryptPasswordRecipient (VirgilCipherBase.passwordUnwrap env s)
  else
    s.contentInfo.decryptKeyRecipient s.recipientId (VirgilCipherBase.keyUnwrap env s)

/-- A symmetric cipher set up for decryption: bound to the algorithm identifier and the content
key in decrypt mode, with the PKCS7 padding exactly when the algorithm supports padding, and no
data of an unfinished message. -/
def decryptionCipher (env : Collaborators) (algorithmId key : VirgilByteArray) :
    VirgilSymmetricCipher :=
  { algorithmId := algorithmId
    key := key
    mode := VirgilSymmetricCipher.Mode.decryption
    padding := if env.symmetricIsSupportPadding algorithmId then some kSymmetricCipher_Padding
               else none
    pending := [] }

/-- The filter once it is done and both its buffers have been drained. -/
def drainedFilter : VirgilContentInfoFilter :=
  { state := VirgilContentInfoFilter.State.Done, contentInfoData := [], encryptedData := [] }

/-- The password cipher `buildContentInfo` draws for the password recipient at position `i` of
the registered passwords: the generator has made two draws for each recipient before it. -/
def recipientCipher (prim : Primitives) (random : VirgilRandom) (i : Nat) : VirgilPBE :=
  (VirgilCipherBase.passwordCipher prim { random with draws := random.draws + 2 * i }).1

/-- The lookahead of the toy format: the tag `48` followed by the length of the body. -/
def sampleLookahead : VirgilByteArray → Lookahead
  | [] => Lookahead.needMoreData
  | [48] => Lookahead.needMoreData
  | 48 :: size :: _ => Lookahead.declaredLength (size + 2)
  | _ => Lookahead.tagMismatch

/-- The reader of the toy format: one password recipient (body of three octets) or one key
recipient (body of four octets). -/
def sampleFromAsn1 : VirgilByteArray → Except VirgilCryptoError VirgilContentInfo
  | [48, 3, a, p, k] =>
    Except.ok
      { contentEncryptionAlgorithm := [a], keyRecipients := [],
        passwordRecipients := [{ keyEncryptionAlgorithm := [p], encryptedKey := [k] }],
        customParams := [] }
  | [48, 4, a, i, p, k] =>
    Except.ok
      { contentEncryptionAlgorithm := [a],
        keyRecipients := [{ recipientId := [i], keyEncryptionAlgorithm := [p], encryptedKey := [k] }],
        passwordRecipients := [], customParams := [] }
  | _ => Except.error VirgilCryptoError.InvalidFormat

/-- The toy collaborators. -/
def sampleCollaborators : Collaborators :=
  { contentInfoLookahead := sampleLookahead
    contentInfoFromAsn1 := sampleFromAsn1
    symmetricFromAsn1 := fun asn1 =>
      if asn1.isEmpty then Except.error VirgilCryptoError.InvalidFormat else Except.ok ()
    symmetricCheckKey := fun _ _ => Except.ok ()
    symmetricIsSupportPadding := fun _ => false
    doDecryptWithKey := fun algorithm encryptedKey privateKey _ =>
      if algorithm == privateKey then Except.ok encryptedKey
      else Except.error VirgilCryptoError.SystemCrypto
    doDecryptWithPassword := fun encryptedKey encryptionAlgorithm password =>
      if encryptionAlgorithm == password then Except.ok encryptedKey
      else Except.error VirgilCryptoError.SystemCrypto }

/-- A toy primitive library: every digest is 48 octets long and the derived key repeats the
iteration count. -/
def sampleMbedtls : Mbedtls :=
  { mbedtls_md_get_size := fun _ => 48
    mbedtls_pkcs5_pbkdf2_hmac := fun _ _ _ iterations size => some (List.replicate size iterations) }

/-- Metadata with algorithm `[5]`, the key recipient `[1]` (private key `[9]`, content key
`[42]`) and one password recipient (password `[7]`, content key `[42]`). -/
def sampleContentInfo : VirgilContentInfo :=
  { contentEncryptionAlgorithm := [5]
    keyRecipients := [{ recipientId := [1], keyEncryptionAlgorithm := [9], encryptedKey := [42] }]
    passwordRecipients := [{ keyEncryptionAlgorithm := [7], encryptedKey := [42] }]
    customParams := [] }

/-- A fresh session holding `sampleContentInfo`. -/
def sampleSession : VirgilCipherBase.Impl :=
  { VirgilCipherBase.Impl.create with contentInfo := sampleContentInfo }

/-- A fresh session whose metadata has the password recipient of `sampleContentInfo` and no key
recipient. -/
def passwordOnlySession : VirgilCipherBase.Impl :=
  { VirgilCipherBase.Impl.create with
    contentInfo := { sampleContentInfo with keyRecipients := [] } }

/-- The session `passwordOnlySession` after `initDecryptionWithKey([1], [9], [])` and then,
without a `clear()` in between, `initDecryptionWithPassword([7])`. -/
def staleKeySession : VirgilCipherBase.Impl :=
  (VirgilCipherBase.initDecryptionWithPassword
    (VirgilCipherBase.initDecryptionWithKey passwordOnlySession [1] [9] []).1 [7]).1

/-- The object identifiers mbedTLS gives the six digests of `VirgilHash::Algorithm`. -/
def sampleOidByMd : mbedtls_md_type_t → Option VirgilByteArray
  | mbedtls_md_type_t.MBEDTLS_MD_MD5 => some [0x2a, 0x86, 0x48, 0x86, 0xf7, 0x0d, 0x02, 0x05]
  | mbedtls_md_type_t.MBEDTLS_MD_SHA1 => some [0x2b, 0x0e, 0x03, 0x02, 0x1a]
  | mbedtls_md_type_t.MBEDTLS_MD_SHA224 => some [0x60, 0x86, 0x48, 0x01, 0x65, 0x03, 0x04, 0x02, 0x04]
  | mbedtls_md_type_t.MBEDTLS_MD_SHA256 => some [0x60, 0x86, 0x48, 0x01, 0x65, 0x03, 0x04, 0x02, 0x01]
  | mbedtls_md_type_t.MBEDTLS_MD_SHA384 => some [0x60, 0x86, 0x48, 0x01, 0x65, 0x03, 0x04, 0x02, 0x02]
  | mbedtls_md_type_t.MBEDTLS_MD_SHA512 => some [0x60, 0x86, 0x48, 0x01, 0x65, 0x03, 0x04, 0x02, 0x03]
  | _ => none

/-- The digest an object identifier stands for, the inverse of `sampleOidByMd`. -/
def sampleMdAlg (oid : VirgilByteArray) : Option mbedtls_md_type_t :=
  [mbedtls_md_type_t.MBEDTLS_MD_MD5, mbedtls_md_type_t.MBEDTLS_MD_SHA1,
    mbedtls_md_type_t.MBEDTLS_MD_SHA224, mbedtls_md_type_t.MBEDTLS_MD_SHA256,
    mbedtls_md_type_t.MBEDTLS_MD_SHA384, mbedtls_md_type_t.MBEDTLS_MD_SHA512].find?
    (fun md => sampleOidByMd md == some oid)

/-- A toy encoding: every element takes a tag octet and a length octet, an integer four
content octets. -/
def sampleEncoding : Encoding :=
  { encodedSize := fun element =>
      match element with
      | asn1.Asn1Element.sequence _ => 2
      | asn1.Asn1Element.oid value => 2 + value.length
      | asn1.Asn1Element.integer _ => 6
      | asn1.Asn1Element.octetString value => 2 + value.length
    mbedtls_oid_get_oid_by_md := sampleOidByMd
    mbedtls_oid_get_md_alg := sampleMdAlg }

/-- A key derivation with the salt `[1, 2]`, the iteration count `3000000000`, above
`2^31 - 1`, and the hash SHA512. -/
def samplePBKDF : VirgilPBKDF.Impl :=
  { VirgilPBKDF.create [1, 2] 3000000000 with hashAlgorithm := VirgilHash.Algorithm.SHA512 }

/-- The serialization of a password cipher in the toy format: scheme, iteration count, salt. -/
def samplePbeToAsn1 (pbe : VirgilPBE) : VirgilByteArray :=
  (match pbe.algorithm with
    | VirgilPBE.Algorithm.PKCS5 => 5
    | VirgilPBE.Algorithm.PKCS12 => 12) :: pbe.iterationCount :: pbe.salt

/-- The reader of `samplePbeToAsn1`. -/
def samplePbeFromAsn1 : VirgilByteArray → Except VirgilCryptoError VirgilPBE
  | 5 :: iterationCount :: salt =>
    Except.ok { algorithm := VirgilPBE.Algorithm.PKCS5, salt := salt,
                iterationCount := iterationCount }
  | 12 :: iterationCount :: salt =>
    Except.ok { algorithm := VirgilPBE.Algorithm.PKCS12, salt := salt,
                iterationCount := iterationCount }
  | _ => Except.error VirgilCryptoError.InvalidFormat

/-- A toy wrap: the length of the secret, the secret (a password or a key) and the data. -/
def sampleSeal (secret data : VirgilByteArray) : VirgilByteArray :=
  secret.length :: (secret ++ data)

/-- The inverse of `sampleSeal`, which throws unless the secret presented is the one sealed. -/
def sampleOpen (secret : VirgilByteArray) :
    VirgilByteArray → Except VirgilCryptoError VirgilByteArray
  | [] => Except.error VirgilCryptoError.SystemCrypto
  | size :: rest =>
    if size == secret.length && rest.take size == secret then Except.ok (rest.drop size)
    else Except.error VirgilCryptoError.SystemCrypto

/-- Toy primitives: a key of 32 octets and an IV of 12, an identifier that is the number of the
algorithm followed by the IV, a public key that is its own private key. -/
def samplePrimitives : Primitives :=
  { entropy := fun _ draw position => 37 * draw + position + 1
    symmetricAlgorithmId := fun algorithm =>
      match algorithm with
      | VirgilSymmetricCipher.Algorithm.AES_128_CBC => [1]
      | VirgilSymmetricCipher.Algorithm.AES_128_GCM => [2]
      | VirgilSymmetricCipher.Algorithm.AES_256_CBC => [3]
      | VirgilSymmetricCipher.Algorithm.AES_256_GCM => [4]
    symmetricKeyLength := fun _ => 32
    symmetricIvSize := fun _ => 12
    symmetricCheckEncryptionKey := fun _ key =>
      if key.length == 32 then Except.ok () else Except.error VirgilCryptoError.InvalidArgument
    symmetricSetIV := fun algorithmId iv => Except.ok (algorithmId ++ iv)
    asymmetricToAsn1 := fun _ => Except.ok [6]
    asymmetricEncrypt := fun publicKey data => Except.ok (sampleSeal publicKey data)
    asymmetricDecrypt := fun privateKey _ data => sampleOpen privateKey data
    pbeToAsn1 := samplePbeToAsn1
    pbeFromAsn1 := samplePbeFromAsn1
    pbeEncrypt := fun _ data password => Except.ok (sampleSeal password data)
    pbeDecrypt := fun _ data password => sampleOpen password data }

/-- The toy collaborators with the two hooks implemented as in the base class. -/
def sampleEnvelope : Collaborators :=
  { sampleCollaborators with
    doDecryptWithKey := VirgilCipherBase.doDecryptWithKey samplePrimitives
    doDecryptWithPassword := VirgilCipherBase.doDecryptWithPassword samplePrimitives }

/-- A fresh session with the key recipient `[1]` (public key `[9]`) and the passwords `[7]` and
`[8]` registered for encryption. -/
def sampleSender : VirgilCipherBase.Impl :=
  { VirgilCipherBase.Impl.create with
    contentInfo :=
      { contentEncryptionAlgorithm := [], keyRecipients := [], passwordRecipients := [],
        customParams := [], publicKeys := [([1], [9])], passwords := [[7], [8]] } }

/-- The session `sampleSender` after `initEncryption()`. -/
def sampleSenderInited : VirgilCipherBase.Impl :=
  (VirgilCipherBase.initEncryption sampleEnvelope samplePrimitives sampleSender).1

/-- The session `sampleSender` after `initEncryption()` and `buildContentInfo()`. -/
def sampleSenderBuilt : VirgilCipherBase.Impl :=
  (VirgilCipherBase.buildContentInfo samplePrimitives sampleSenderInited).1

open VirgilPBKDF VirgilCipherBase

theorem checkRecommendations_error_iff (impl : VirgilPBKDF.Impl)
    (pwd : VirgilByteArray) (e : VirgilCryptoError) :
    checkRecommendations impl pwd = Except.error e ↔
      e = VirgilCryptoError.NotSecure ∧ impl.checkRecommendations = true ∧
        (pwd = [] ∨ impl.salt = [] ∨ impl.iterationCount < impl.iterationCountMin) := by
  unfold checkRecommendations
  cases hc : impl.checkRecommendations <;> simp
  by_cases hp : pwd = []
  · simp [hp, eq_comm]
  · by_cases hs : impl.salt = []
    · simp [hp, hs, eq_comm]
    · by_cases hi : impl.iterationCount < impl.iterationCountMin
      · simp [hp, hs, hi, eq_comm]
      · simp [hp, hs, hi]

theorem derive_notSecure_iff_check (env : foundation.Mbedtls) (impl : VirgilPBKDF.Impl)
    (pwd : VirgilByteArray) (outSize : Nat) :
    derive env impl pwd outSize = Except.error VirgilCryptoError.NotSecure ↔
      checkRecommendations impl pwd = Except.error VirgilCryptoError.NotSecure := by
  unfold derive
  cases hc : checkRecommendations impl pwd with
  | error e => simp
  | ok u =>
    simp only [reduceCtorEq, iff_false]
    split
    · simp
    · cases impl.algorithm
      split <;> simp

/-- C1: `derive(password, outputLength)` fails with NotSecure if and only if the recommendation
checks are enabled and the password is empty, or the salt is empty, or the iteration count is
below the minimum. An iteration count equal to the minimum is accepted, with the checks disabled
`derive` never fails with NotSecure, and a newly constructed instance has the checks enabled with
the minimum 2048. -/
theorem derive_notSecure_iff (env : foundation.Mbedtls) (impl : VirgilPBKDF.Impl)
    (pwd : VirgilByteArray) (outSize : Nat) (salt : VirgilByteArray) (iterationCount : Nat) :
    (derive env impl pwd outSize = Except.error VirgilCryptoError.NotSecure ↔
      impl.checkRecommendations = true ∧
        (pwd = [] ∨ impl.salt = [] ∨ impl.iterationCount < impl.iterationCountMin)) ∧
    (derive env { impl with iterationCount := impl.iterationCountMin } pwd outSize =
        Except.error VirgilCryptoError.NotSecure ↔
      impl.checkRecommendations = true ∧ (pwd = [] ∨ impl.salt = [])) ∧
    derive env (disableRecommendationsCheck impl) pwd outSize ≠
      Except.error VirgilCryptoError.NotSecure ∧
    (VirgilPBKDF.create salt iterationCount).iterationCountMin = 2048 ∧
    (VirgilPBKDF.create salt iterationCount).checkRecommendations = true := by
  refine ⟨?_, ?_, ?_, rfl, rfl⟩
  · rw [derive_notSecure_iff_check, checkRecommendations_error_iff]
    simp
  · rw [derive_notSecure_iff_check, checkRecommendations_error_iff]
    simp
  · rw [Ne, derive_notSecure_iff_check, checkRecommendations_error_iff]
    simp [disableRecommendationsCheck]

theorem derive_notSecure_iff_witness :
    VirgilPBKDF.derive sampleMbedtls (VirgilPBKDF.create [1] 2047) [1] 4 =
        Except.error VirgilCryptoError.NotSecure ∧
    VirgilPBKDF.derive sampleMbedtls (VirgilPBKDF.create [1] 2048) [1] 4 ≠
        Except.error VirgilCryptoError.NotSecure ∧
    VirgilPBKDF.derive sampleMbedtls
        (VirgilPBKDF.disableRecommendationsCheck (VirgilPBKDF.create [] 0)) [] 4 ≠
      Except.error VirgilCryptoError.NotSecure :=
  ⟨(derive_notSecure_iff sampleMbedtls (VirgilPBKDF.create [1] 2047) [1] 4 [] 0).1.mpr
      ⟨rfl, Or.inr (Or.inr (by decide))⟩,
   fun h =>
    absurd ((derive_notSecure_iff sampleMbedtls (VirgilPBKDF.create [1] 2048) [1] 4 [] 0).1.mp h)
      (by decide),
   (derive_notSecure_iff sampleMbedtls (VirgilPBKDF.create [] 0) [] 4 [] 0).2.2.1⟩

/-! ## The cipher session: setting up decryption -/

theorem accomplishInitDecryption_of_not_ready (env : Collaborators)
    (s : VirgilCipherBase.Impl) (h : s.contentInfo.isReadyForDecryption = false) :
    accomplishInitDecryption env s =
      { state := s, calls := [Call.accomplishInitDecryption],
        result := Except.error VirgilCryptoError.InvalidState } := by
  simp [accomplishInitDecryption, h]

/-- C2: when the metadata is not ready for decryption `accomplishInitDecryption()` fails with
InvalidState whatever identity is stored: the only call recorded is the entry into the function
itself, so no unwrap hook is invoked, and the session state, the symmetric cipher included, is
the state before the call. -/
theorem accomplishInitDecryption_not_ready (env : Collaborators) (s : VirgilCipherBase.Impl)
    (h : s.contentInfo.isReadyForDecryption = false) :
    accomplishInitDecryption env s =
      { state := s, calls := [Call.accomplishInitDecryption],
        result := Except.error VirgilCryptoError.InvalidState } := by
  simp [accomplishInitDecryption, h]

theorem accomplishInitDecryption_not_ready_witness :
    (VirgilCipherBase.Impl.create).contentInfo.isReadyForDecryption = false ∧
    accomplishInitDecryption sampleCollaborators VirgilCipherBase.Impl.create =
      { state := VirgilCipherBase.Impl.create, calls := [Call.accomplishInitDecryption],
        result := Except.error VirgilCryptoError.InvalidState } :=
  ⟨by decide, accomplishInitDecryption_not_ready sampleCollaborators VirgilCipherBase.Impl.create (by decide)⟩

/-- C3: with metadata ready for decryption, an empty stored recipientId and a password-recipient
lookup that yields an empty content key make `accomplishInitDecryption()` fail with
NotFoundPasswordRecipient; a non-empty stored recipientId and a key-recipient lookup that yields
an empty content key make it fail with NotFoundKeyRecipient. In both cases the session state,
the symmetric cipher included, is the state before the call. -/
theorem accomplishInitDecryption_not_found (env : Collaborators) (s : VirgilCipherBase.Impl)
    (hready : s.contentInfo.isReadyForDecryption = true) :
    (s.recipientId = [] →
      (s.contentInfo.decryptPasswordRecipient (passwordUnwrap env s)).value = Except.ok [] →
      (accomplishInitDecryption env s).result =
          Except.error VirgilCryptoError.NotFoundPasswordRecipient ∧
        (accomplishInitDecryption env s).state = s) ∧
    (s.recipientId ≠ [] →
      (s.contentInfo.decryptKeyRecipient s.recipientId (keyUnwrap env s)).value = Except.ok [] →
      (accomplishInitDecryption env s).result =
          Except.error VirgilCryptoError.NotFoundKeyRecipient ∧
        (accomplishInitDecryption env s).state = s) := by
  constructor
  · intro hid hkey
    simp [accomplishInitDecryption, hready, hid, hkey]
  · intro hid hkey
    simp [accomplishInitDecryption, hready, hid, hkey]

theorem accomplishInitDecryption_not_found_witness :
    ((accomplishInitDecryption sampleCollaborators { sampleSession with pwd := [8] }).result =
        Except.error VirgilCryptoError.NotFoundPasswordRecipient ∧
      (accomplishInitDecryption sampleCollaborators { sampleSession with pwd := [8] }).state =
        { sampleSession with pwd := [8] }) ∧
    ((accomplishInitDecryption sampleCollaborators
          { sampleSession with recipientId := [2], privateKey := [9] }).result =
        Except.error VirgilCryptoError.NotFoundKeyRecipient ∧
      (accomplishInitDecryption sampleCollaborators
          { sampleSession with recipientId := [2], privateKey := [9] }).state =
        { sampleSession with recipientId := [2], privateKey := [9] }) :=
  ⟨(accomplishInitDecryption_not_found sampleCollaborators { sampleSession with pwd := [8] }
      (by decide)).1 (by decide) rfl,
   (accomplishInitDecryption_not_found sampleCollaborators
      { sampleSession with recipientId := [2], privateKey := [9] } (by decide)).2
      (by decide) rfl⟩

/-- C4: `initDecryptionWithPassword(pwd)` fails with InvalidArgument iff `pwd` is empty and
succeeds otherwise; `initDecryptionWithKey(recipientId, privateKey, privateKeyPassword)` fails
with InvalidArgument iff `recipientId` or `privateKey` is empty, whatever the private-key
password, and succeeds otherwise. A failing call leaves the session state as it was; a
successful call stores the identity given and sets `isInited`, and changes nothing else. -/
theorem initDecryption_contract (s : VirgilCipherBase.Impl)
    (pwd recipientId privateKey privateKeyPassword : VirgilByteArray) :
    ((initDecryptionWithPassword s pwd).2 = Except.error VirgilCryptoError.InvalidArgument ↔
      pwd = []) ∧
    ((initDecryptionWithPassword s pwd).2 = Except.ok () ↔ pwd ≠ []) ∧
    (pwd = [] → (initDecryptionWithPassword s pwd).1 = s) ∧
    (pwd ≠ [] →
      (initDecryptionWithPassword s pwd).1 = { s with pwd := pwd, isInited := true } ∧
      isInited (initDecryptionWithPassword s pwd).1 = true) ∧
    ((initDecryptionWithKey s recipientId privateKey privateKeyPassword).2 =
        Except.error VirgilCryptoError.InvalidArgument ↔
      recipientId = [] ∨ privateKey = []) ∧
    ((initDecryptionWithKey s recipientId privateKey privateKeyPassword).2 = Except.ok () ↔
      recipientId ≠ [] ∧ privateKey ≠ []) ∧
    (recipientId = [] ∨ privateKey = [] →
      (initDecryptionWithKey s recipientId privateKey privateKeyPassword).1 = s) ∧
    (recipientId ≠ [] ∧ privateKey ≠ [] →
      (initDecryptionWithKey s recipientId privateKey privateKeyPassword).1 =
        { s with recipientId := recipientId, privateKey := privateKey,
                 pwd := privateKeyPassword, isInited := true } ∧
      isInited (initDecryptionWithKey s recipientId privateKey privateKeyPassword).1 = true) := by
  unfold initDecryptionWithPassword initDecryptionWithKey isInited
  by_cases hp : pwd = [] <;> by_cases hr : recipientId = [] <;> by_cases hk : privateKey = [] <;>
    simp [hp, hr, hk]

theorem initDecryption_contract_witness :
    (initDecryptionWithPassword sampleSession []).2 =
        Except.error VirgilCryptoError.InvalidArgument ∧
    (initDecryptionWithPassword sampleSession []).1 = sampleSession ∧
    (initDecryptionWithPassword sampleSession [7]).1 =
        { sampleSession with pwd := [7], isInited := true } ∧
    (initDecryptionWithKey sampleSession [1] [9] []).2 = Except.ok () ∧
    (initDecryptionWithKey sampleSession [1] [] [3]).1 = sampleSession :=
  ⟨(initDecryption_contract sampleSession [] [1] [9] []).1.mpr rfl,
   (initDecryption_contract sampleSession [] [1] [9] []).2.2.1 rfl,
   ((initDecryption_contract sampleSession [7] [1] [9] []).2.2.2.1 (by decide)).1,
   (initDecryption_contract sampleSession [7] [1] [9] []).2.2.2.2.2.1.mpr
     ⟨by decide, by decide⟩,
   (initDecryption_contract sampleSession [7] [1] [] [3]).2.2.2.2.2.2.1 (Or.inr rfl)⟩

/-- C5, evaluated on the code: in a session where `initDecryptionWithKey([1], [9], [])` was
called and `clear()` was not, `initDecryptionWithPassword([7])` succeeds but the recipient id
`[1]` and the private key `[9]` stay stored; the following `accomplishInitDecryption()` takes the
key path, never calls `doDecryptWithPassword`, and fails with NotFoundKeyRecipient although
`[7]` is the password of a password recipient of the metadata, while the same two calls on the
fresh session unwrap the content key through `doDecryptWithPassword` with `[7]`. -/
theorem initDecryptionWithPassword_keeps_key_identity :
    (initDecryptionWithKey passwordOnlySession [1] [9] []).2 = Except.ok () ∧
    (initDecryptionWithPassword
      (initDecryptionWithKey passwordOnlySession [1] [9] []).1 [7]).2 = Except.ok () ∧
    staleKeySession.recipientId = [1] ∧ staleKeySession.privateKey = [9] ∧
    staleKeySession.pwd = [7] ∧
    (accomplishInitDecryption sampleCollaborators staleKeySession).calls =
      [Call.accomplishInitDecryption] ∧
    (accomplishInitDecryption sampleCollaborators staleKeySession).result =
      Except.error VirgilCryptoError.NotFoundKeyRecipient ∧
    (accomplishInitDecryption sampleCollaborators
        (initDecryptionWithPassword passwordOnlySession [7]).1).calls =
      [Call.accomplishInitDecryption, Call.doDecryptWithPassword [42] [7] [7]] ∧
    (accomplishInitDecryption sampleCollaborators
        (initDecryptionWithPassword passwordOnlySession [7]).1).result = Except.ok () := by
  refine ⟨rfl, rfl, rfl, rfl, rfl, rfl, rfl, rfl, rfl⟩

/-! ## The cipher session: the metadata filter -/

open VirgilContentInfoFilter

theorem tellLastChunk_of_not_waiting (env : Collaborators) (f : VirgilContentInfoFilter)
    (h : f.state ≠ State.WaitingForData) : tellLastChunk env f = f := by
  simp [tellLastChunk, isWaitingData, h]

theorem filtered_of_not_waiting (env : Collaborators) (s : VirgilCipherBase.Impl)
    (chunk : VirgilByteArray) (isLastChunk : Bool)
    (h : s.contentInfoFilter.state ≠ State.WaitingForData) :
    filtered env s chunk isLastChunk = s.contentInfoFilter := by
  unfold filtered
  cases isLastChunk <;> simp [isWaitingData, h, tellLastChunk_of_not_waiting]

theorem process_waiting_data (env : Collaborators) (buffer : VirgilByteArray)
    (h : (process env buffer).state = State.WaitingForData) :
    (process env buffer).contentInfoData = buffer := by
  unfold process at h ⊢
  split
  · rfl
  · simp_all
  · split
    · rfl
    · split <;> simp_all

theorem tellLastChunk_process (env : Collaborators) (buffer : VirgilByteArray)
    (h : (tellLastChunk env (process env buffer)).state ≠ State.ContentInfoBroken) :
    tellLastChunk env (process env buffer) = process env buffer := by
  by_cases hw : (process env buffer).state = State.WaitingForData
  · have hd := process_waiting_data env buffer hw
    have hstep : tellLastChunk env (process env buffer) =
        if buffer.isEmpty then process env buffer
        else
          { state := State.ContentInfoBroken, contentInfoData := buffer, encryptedData := [] } := by
      simp only [tellLastChunk, isWaitingData, hw, beq_self_eq_true, if_true, hd]
    by_cases hempty : buffer = []
    · rw [hstep]
      simp [hempty]
    · exfalso
      apply h
      rw [hstep]
      simp [hempty]
  · exact tellLastChunk_of_not_waiting env _ hw

theorem filtered_of_waiting (env : Collaborators) (s : VirgilCipherBase.Impl)
    (chunk : VirgilByteArray) (isLastChunk : Bool)
    (hw : s.contentInfoFilter.state = State.WaitingForData)
    (h : (filtered env s chunk isLastChunk).state ≠ State.ContentInfoBroken) :
    filtered env s chunk isLastChunk =
      process env (s.contentInfoFilter.contentInfoData ++ chunk) := by
  unfold filtered at h ⊢
  cases isLastChunk
  · simp [isWaitingData, hw, filterData]
  · simp only [isWaitingData, hw, filterData, beq_self_eq_true, if_true] at h ⊢
    exact tellLastChunk_process env _ h

theorem process_found (env : Collaborators) (buffer : VirgilByteArray)
    (h : (process env buffer).state = State.ContentInfoFound) :
    ∃ size, env.contentInfoLookahead buffer = Lookahead.declaredLength size ∧
      (process env buffer).contentInfoData = buffer.take size ∧
      (process env buffer).encryptedData = buffer.drop size := by
  cases hl : env.contentInfoLookahead buffer with
  | needMoreData => simp [process, hl] at h
  | tagMismatch => simp [process, hl] at h
  | declaredLength size =>
    refine ⟨size, rfl, ?_⟩
    by_cases hlen : buffer.length < size
    · simp [process, hl, hlen] at h
    · cases hp : env.contentInfoFromAsn1 (List.take size buffer) with
      | error e => simp [process, hl, hlen, hp] at h
      | ok ci => simp [process, hl, hlen, hp]

theorem process_absent (env : Collaborators) (buffer : VirgilByteArray)
    (h : (process env buffer).state = State.ContentInfoAbsent) :
    env.contentInfoLookahead buffer = Lookahead.tagMismatch ∧
      (process env buffer).encryptedData = buffer := by
  cases hl : env.contentInfoLookahead buffer with
  | needMoreData => simp [process, hl] at h
  | tagMismatch => simp [process, hl]
  | declaredLength size =>
    by_cases hlen : buffer.length < size
    · simp [process, hl, hlen] at h
    · cases hp : env.contentInfoFromAsn1 (List.take size buffer) with
      | error e => simp [process, hl, hlen, hp] at h
      | ok ci => simp [process, hl, hlen, hp] at h

theorem initSymmetricCipherForDecryption_ok (env : Collaborators) (s : VirgilCipherBase.Impl)
    (key : VirgilByteArray)
    (halg : env.symmetricFromAsn1 s.contentInfo.contentEncryptionAlgorithm = Except.ok ())
    (hcheck : env.symmetricCheckKey s.contentInfo.contentEncryptionAlgorithm key = Except.ok ()) :
    initSymmetricCipherForDecryption env s key =
      ({ s with
         symmetricCipher := decryptionCipher env s.contentInfo.contentEncryptionAlgorithm key },
       Except.ok ()) := by
  unfold initSymmetricCipherForDecryption
  simp only [VirgilSymmetricCipher.fromAsn1, VirgilContentInfo.getContentEncryptionAlgorithm,
    halg, VirgilSymmetricCipher.setDecryptionKey, hcheck, VirgilSymmetricCipher.isSupportPadding,
    VirgilSymmetricCipher.create, VirgilSymmetricCipher.setPadding, VirgilSymmetricCipher.reset,
    decryptionCipher]
  cases env.symmetricIsSupportPadding s.contentInfo.contentEncryptionAlgorithm <;> rfl

theorem accomplishInitDecryption_ok (env : Collaborators) (s : VirgilCipherBase.Impl)
    (key : VirgilByteArray)
    (hready : s.contentInfo.isReadyForDecryption = true)
    (hkey : (unwrapContentKey env s).value = Except.ok key)
    (hmatch : key ≠ [])
    (halg : env.symmetricFromAsn1 s.contentInfo.contentEncryptionAlgorithm = Except.ok ())
    (hcheck : env.symmetricCheckKey s.contentInfo.contentEncryptionAlgorithm key = Except.ok ()) :
    accomplishInitDecryption env s =
      { state :=
          { s with
            symmetricCipher := decryptionCipher env s.contentInfo.contentEncryptionAlgorithm key }
        calls := Call.accomplishInitDecryption :: (unwrapContentKey env s).calls
        result := Except.ok () } := by
  have hne : key.isEmpty = false := by simpa using hmatch
  unfold unwrapContentKey at hkey ⊢
  unfold accomplishInitDecryption
  cases hid : s.recipientId.isEmpty
  · simp only [hid, Bool.false_eq_true, if_false] at hkey ⊢
    simp only [hready, Bool.not_true, Bool.false_eq_true, if_false, hkey, hne,
      initSymmetricCipherForDecryption_ok env s key halg hcheck]
  · simp only [hid, if_true] at hkey ⊢
    simp only [hready, Bool.not_true, Bool.false_eq_true, if_false, hkey, hne,
      initSymmetricCipherForDecryption_ok env s key halg hcheck]

theorem filtered_state_ne_done_of_ne (env : Collaborators) (s : VirgilCipherBase.Impl)
    (chunk : VirgilByteArray) (isLastChunk : Bool)
    (h : (filtered env s chunk isLastChunk).state ≠ State.Done) :
    s.contentInfoFilter.state ≠ State.Done := by
  intro hd
  apply h
  rw [filtered_of_not_waiting env s chunk isLastChunk (by simp [hd]), hd]

/-- C6: if the metadata filter is in ContentInfoBroken, already on entry or after the current
chunk has been filtered, `filterAndSetupContentInfo(chunk, isLastChunk)` fails with
InvalidArgument for every chunk and both values of `isLastChunk`, makes no call of
`accomplishInitDecryption` or of a hook, returns no bytes, and leaves the filter in
ContentInfoBroken with the rest of the session untouched; in the state it leaves, every later
call fails in the same way and changes nothing, and `clear()` puts the filter back into its
initial state. -/
theorem filterAndSetupContentInfo_broken (env : Collaborators) (s : VirgilCipherBase.Impl)
    (chunk : VirgilByteArray) (isLastChunk : Bool)
    (h : s.contentInfoFilter.state = State.ContentInfoBroken ∨
      (filtered env s chunk isLastChunk).state = State.ContentInfoBroken) :
    filterAndSetupContentInfo env s chunk isLastChunk =
      { state := { s with contentInfoFilter := filtered env s chunk isLastChunk }
        calls := []
        result := Except.error VirgilCryptoError.InvalidArgument } ∧
    (filtered env s chunk isLastChunk).state = State.ContentInfoBroken ∧
    (s.contentInfoFilter.state = State.ContentInfoBroken →
      filtered env s chunk isLastChunk = s.contentInfoFilter) ∧
    (∀ (laterChunk : VirgilByteArray) (laterIsLast : Bool),
      filterAndSetupContentInfo env
          { s with contentInfoFilter := filtered env s chunk isLastChunk } laterChunk
          laterIsLast =
        { state := { s with contentInfoFilter := filtered env s chunk isLastChunk }
          calls := []
          result := Except.error VirgilCryptoError.InvalidArgument }) ∧
    (clear { s with contentInfoFilter := filtered env s chunk isLastChunk }).contentInfoFilter =
      VirgilContentInfoFilter.create := by
  have hkeep : s.contentInfoFilter.state = State.ContentInfoBroken →
      filtered env s chunk isLastChunk = s.contentInfoFilter := fun hb =>
    filtered_of_not_waiting env s chunk isLastChunk (by simp [hb])
  have hb : (filtered env s chunk isLastChunk).state = State.ContentInfoBroken := by
    rcases h with h | h
    · rw [hkeep h, h]
    · exact h
  have hnd : s.contentInfoFilter.state ≠ State.Done :=
    filtered_state_ne_done_of_ne env s chunk isLastChunk (by simp [hb])
  refine ⟨?_, hb, hkeep, ?_, rfl⟩
  · simp [filterAndSetupContentInfo, isDone, hnd, isContentInfoAbsent, isContentInfoFound,
      isContentInfoBroken, hb]
  · intro laterChunk laterIsLast
    have hf : filtered env { s with contentInfoFilter := filtered env s chunk isLastChunk }
        laterChunk laterIsLast = filtered env s chunk isLastChunk :=
      filtered_of_not_waiting env _ laterChunk laterIsLast (by simp [hb])
    simp [filterAndSetupContentInfo, isDone, isContentInfoAbsent, isContentInfoFound,
      isContentInfoBroken, hb, hf]

theorem filterAndSetupContentInfo_broken_witness :
    filterAndSetupContentInfo sampleCollaborators sampleSession [48, 1, 0] false =
      { state :=
          { sampleSession with
            contentInfoFilter :=
              { state := State.ContentInfoBroken, contentInfoData := [48, 1, 0],
                encryptedData := [] } }
        calls := []
        result := Except.error VirgilCryptoError.InvalidArgument } :=
  (filterAndSetupContentInfo_broken sampleCollaborators sampleSession [48, 1, 0] false
    (Or.inr rfl)).1

/-- C7: when the filter is in ContentInfoFound after the current chunk has been filtered, the
record it extracted deserialises to metadata that is ready for decryption, the stored identity
unwraps a non-empty content key from that metadata and the symmetric cipher accepts the
metadata's algorithm identifier and the key, `filterAndSetupContentInfo` installs the metadata
read from exactly the extracted record, leaves the filter done with both buffers empty, sets the
symmetric cipher up for decryption with the algorithm of the metadata and the content key, and
returns exactly the filter's ciphertext buffer; if the filter was waiting for data on entry, the
record and the returned bytes are the first `size` octets and the rest of the buffered input
followed by the chunk, `size` being the declared length of the record. -/
theorem filterAndSetupContentInfo_found (env : Collaborators) (s : VirgilCipherBase.Impl)
    (chunk : VirgilByteArray) (isLastChunk : Bool) (ci : VirgilContentInfo)
    (key : VirgilByteArray)
    (hfound : (filtered env s chunk isLastChunk).state = State.ContentInfoFound)
    (hparse : env.contentInfoFromAsn1 (filtered env s chunk isLastChunk).contentInfoData =
      Except.ok ci)
    (hready : ci.isReadyForDecryption = true)
    (hkey : (unwrapContentKey env { s with contentInfo := ci }).value = Except.ok key)
    (hmatch : key ≠ [])
    (halg : env.symmetricFromAsn1 ci.contentEncryptionAlgorithm = Except.ok ())
    (hcheck : env.symmetricCheckKey ci.contentEncryptionAlgorithm key = Except.ok ()) :
    filterAndSetupContentInfo env s chunk isLastChunk =
      { state :=
          { s with
            contentInfo := ci
            contentInfoFilter := drainedFilter
            symmetricCipher := decryptionCipher env ci.contentEncryptionAlgorithm key }
        calls :=
          Call.accomplishInitDecryption ::
            (unwrapContentKey env { s with contentInfo := ci }).calls
        result := Except.ok (filtered env s chunk isLastChunk).encryptedData } ∧
    (s.contentInfoFilter.state = State.WaitingForData →
      ∃ size,
        env.contentInfoLookahead (s.contentInfoFilter.contentInfoData ++ chunk) =
          Lookahead.declaredLength size ∧
        (filtered env s chunk isLastChunk).contentInfoData =
          (s.contentInfoFilter.contentInfoData ++ chunk).take size ∧
        (filtered env s chunk isLastChunk).encryptedData =
          (s.contentInfoFilter.contentInfoData ++ chunk).drop size) := by
  have hnd : s.contentInfoFilter.state ≠ State.Done :=
    filtered_state_ne_done_of_ne env s chunk isLastChunk (by simp [hfound])
  constructor
  · have hacc := accomplishInitDecryption_ok env
      { s with
        contentInfo := ci
        contentInfoFilter :=
          { state := State.Done, contentInfoData := [],
            encryptedData := (filtered env s chunk isLastChunk).encryptedData } }
      key hready hkey hmatch halg hcheck
    simp only [filterAndSetupContentInfo, isDone, beq_iff_eq, hnd, if_false,
      isContentInfoAbsent, isContentInfoFound, hfound, reduceCtorEq, if_true, popContentInfo,
      setContentInfo, hparse, finish, accomplishAndPop, popEncryptedData]
    rw [hacc]
    rfl
  · intro hw
    have hp := filtered_of_waiting env s chunk isLastChunk hw (by simp [hfound])
    rw [hp] at hfound ⊢
    exact process_found env _ hfound

theorem filterAndSetupContentInfo_found_witness :
    filterAndSetupContentInfo sampleCollaborators
        { VirgilCipherBase.Impl.create with pwd := [7] } [48, 3, 5, 7, 42, 100, 101] false =
      { state :=
          { VirgilCipherBase.Impl.create with
            pwd := [7]
            contentInfo := { sampleContentInfo with keyRecipients := [] }
            contentInfoFilter := drainedFilter
            symmetricCipher := decryptionCipher sampleCollaborators [5] [42] }
        calls := [Call.accomplishInitDecryption, Call.doDecryptWithPassword [42] [7] [7]]
        result := Except.ok [100, 101] } :=
  (filterAndSetupContentInfo_found sampleCollaborators
    { VirgilCipherBase.Impl.create with pwd := [7] } [48, 3, 5, 7, 42, 100, 101] false
    { sampleContentInfo with keyRecipients := [] } [42] rfl rfl rfl rfl (by decide) rfl rfl).1

/-- C8: when the filter is in ContentInfoAbsent after the current chunk has been filtered and
metadata supplied beforehand is ready for decryption, the stored identity unwraps a non-empty
content key from it and the symmetric cipher accepts its algorithm identifier and the key,
`filterAndSetupContentInfo` leaves the supplied metadata as it is, moves the filter to Done,
sets the symmetric cipher up for decryption and returns the filter's ciphertext buffer, which is
the whole input buffered so far when the filter was waiting for data on entry; when the metadata
is not ready for decryption the same call fails with InvalidState, with the metadata and the
symmetric cipher as they were. -/
theorem filterAndSetupContentInfo_absent (env : Collaborators) (s : VirgilCipherBase.Impl)
    (chunk : VirgilByteArray) (isLastChunk : Bool)
    (habsent : (filtered env s chunk isLastChunk).state = State.ContentInfoAbsent) :
    (∀ key : VirgilByteArray,
      s.contentInfo.isReadyForDecryption = true →
      (unwrapContentKey env s).value = Except.ok key →
      key ≠ [] →
      env.symmetricFromAsn1 s.contentInfo.contentEncryptionAlgorithm = Except.ok () →
      env.symmetricCheckKey s.contentInfo.contentEncryptionAlgorithm key = Except.ok () →
      filterAndSetupContentInfo env s chunk isLastChunk =
        { state :=
            { s with
              contentInfoFilter :=
                { state := State.Done
                  contentInfoData := (filtered env s chunk isLastChunk).contentInfoData
                  encryptedData := [] }
              symmetricCipher :=
                decryptionCipher env s.contentInfo.contentEncryptionAlgorithm key }
          calls := Call.accomplishInitDecryption :: (unwrapContentKey env s).calls
          result := Except.ok (filtered env s chunk isLastChunk).encryptedData }) ∧
    (s.contentInfo.isReadyForDecryption = false →
      (filterAndSetupContentInfo env s chunk isLastChunk).result =
          Except.error VirgilCryptoError.InvalidState ∧
        (filterAndSetupContentInfo env s chunk isLastChunk).state.contentInfo = s.contentInfo ∧
        (filterAndSetupContentInfo env s chunk isLastChunk).state.symmetricCipher =
          s.symmetricCipher) ∧
    (s.contentInfoFilter.state = State.WaitingForData →
      (filtered env s chunk isLastChunk).encryptedData =
        s.contentInfoFilter.contentInfoData ++ chunk) := by
  have hnd : s.contentInfoFilter.state ≠ State.Done :=
    filtered_state_ne_done_of_ne env s chunk isLastChunk (by simp [habsent])
  refine ⟨?_, ?_, ?_⟩
  · intro key hready hkey hmatch halg hcheck
    have hacc := accomplishInitDecryption_ok env
      { s with
        contentInfoFilter :=
          { state := State.Done
            contentInfoData := (filtered env s chunk isLastChunk).contentInfoData
            encryptedData := (filtered env s chunk isLastChunk).encryptedData } }
      key hready hkey hmatch halg hcheck
    simp only [filterAndSetupContentInfo, isDone, beq_iff_eq, hnd, if_false,
      isContentInfoAbsent, habsent, if_true, finish, accomplishAndPop, popEncryptedData]
    rw [hacc]
    rfl
  · intro hready
    have hacc := accomplishInitDecryption_of_not_ready env
      { s with
        contentInfoFilter :=
          { state := State.Done
            contentInfoData := (filtered env s chunk isLastChunk).contentInfoData
            encryptedData := (filtered env s chunk isLastChunk).encryptedData } }
      hready
    simp only [filterAndSetupContentInfo, isDone, beq_iff_eq, hnd, if_false,
      isContentInfoAbsent, habsent, if_true, finish, accomplishAndPop, popEncryptedData]
    rw [hacc]
    exact ⟨rfl, rfl, rfl⟩
  · intro hw
    have hp := filtered_of_waiting env s chunk isLastChunk hw (by simp [habsent])
    rw [hp] at habsent ⊢
    exact (process_absent env _ habsent).2

theorem filterAndSetupContentInfo_absent_witness :
    filterAndSetupContentInfo sampleCollaborators { sampleSession with pwd := [7] } [1, 2, 3]
        false =
      { state :=
          { sampleSession with
            pwd := [7]
            contentInfoFilter :=
              { state := State.Done, contentInfoData := [], encryptedData := [] }
            symmetricCipher := decryptionCipher sampleCollaborators [5] [42] }
        calls := [Call.accomplishInitDecryption, Call.doDecryptWithPassword [42] [7] [7]]
        result := Except.ok [1, 2, 3] } ∧
    (filterAndSetupContentInfo sampleCollaborators
        { VirgilCipherBase.Impl.create with pwd := [7] } [1, 2, 3] false).result =
      Except.error VirgilCryptoError.InvalidState :=
  ⟨(filterAndSetupContentInfo_absent sampleCollaborators { sampleSession with pwd := [7] }
      [1, 2, 3] false rfl).1 [42] rfl rfl (by decide) rfl rfl,
   ((filterAndSetupContentInfo_absent sampleCollaborators
      { VirgilCipherBase.Impl.create with pwd := [7] } [1, 2, 3] false rfl).2.1 rfl).1⟩

/-- C9: once the filter is Done, `filterAndSetupContentInfo(chunk, isLastChunk)` returns the
chunk itself for every chunk and both values of `isLastChunk`, makes no call, and leaves every
part of the session state as it was. -/
theorem filterAndSetupContentInfo_done (env : Collaborators) (s : VirgilCipherBase.Impl)
    (chunk : VirgilByteArray) (isLastChunk : Bool)
    (hdone : s.contentInfoFilter.state = State.Done) :
    filterAndSetupContentInfo env s chunk isLastChunk =
      { state := s, calls := [], result := Except.ok chunk } := by
  simp [filterAndSetupContentInfo, isDone, hdone]

theorem filterAndSetupContentInfo_done_witness :
    filterAndSetupContentInfo sampleCollaborators
        { sampleSession with contentInfoFilter := drainedFilter } [48, 3, 5, 7, 42] true =
      { state := { sampleSession with contentInfoFilter := drainedFilter }
        calls := []
        result := Except.ok [48, 3, 5, 7, 42] } :=
  filterAndSetupContentInfo_done sampleCollaborators
    { sampleSession with contentInfoFilter := drainedFilter } [48, 3, 5, 7, 42] true rfl

/-- C11: a successful `derive(password, outputLength)` returns exactly `outputLength` octets when
`outputLength > 0` and exactly the digest size of the configured hash when `outputLength` is
zero. -/
theorem derive_length (env : foundation.Mbedtls) (impl : VirgilPBKDF.Impl)
    (pwd : VirgilByteArray) (outSize : Nat) (result : VirgilByteArray)
    (h : VirgilPBKDF.derive env impl pwd outSize = Except.ok result) :
    result.length =
      if outSize > 0 then outSize
      else env.mbedtls_md_get_size (internal.hash_to_md_type impl.hashAlgorithm) := by
  unfold VirgilPBKDF.derive at h
  cases hc : VirgilPBKDF.checkRecommendations impl pwd with
  | error e => simp [hc] at h
  | ok u =>
    simp only [hc] at h
    by_cases hbig : outSize > UINT_MAX
    · simp [hbig] at h
    · simp only [hbig, if_false] at h
      cases halgo : impl.algorithm
      have hmod : outSize % 2 ^ 32 = outSize := by
        apply Nat.mod_eq_of_lt
        unfold UINT_MAX at hbig
        omega
      split at h
      · simp at h
      · simp only [Except.ok.injEq] at h
        subst h
        have hmod2 : outSize % 4294967296 = outSize := by simpa using hmod
        simp [resultBuffer, hmod2]

theorem derive_length_witness :
    VirgilPBKDF.derive sampleMbedtls (VirgilPBKDF.create [1] 2048) [1] 4 =
        Except.ok [2048, 2048, 2048, 2048] ∧
    ([2048, 2048, 2048, 2048] : VirgilByteArray).length = 4 ∧
    (List.replicate 48 4096 : VirgilByteArray).length = 48 :=
  ⟨rfl,
   derive_length sampleMbedtls (VirgilPBKDF.create [1] 2048) [1] 4 [2048, 2048, 2048, 2048] rfl,
   derive_length sampleMbedtls (VirgilPBKDF.create [1] 4096) [1] 0 (List.replicate 48 4096)
     rfl⟩

/-- C12, refuted as stated: with the recommendation checks enabled and an iteration count below
the minimum, `derive` with an output length above `2^32 - 1` fails with NotSecure and not with
InvalidArgument, because the checks run before the test of the output length. -/
theorem derive_oversized_not_invalidArgument :
    VirgilPBKDF.derive sampleMbedtls (VirgilPBKDF.create [1] 1) [1] 4294967296 =
        Except.error VirgilCryptoError.NotSecure ∧
    VirgilPBKDF.derive sampleMbedtls (VirgilPBKDF.create [1] 1) [1] 4294967296 ≠
        Except.error VirgilCryptoError.InvalidArgument := by
  constructor
  · rfl
  · intro h
    have h2 : VirgilPBKDF.derive sampleMbedtls (VirgilPBKDF.create [1] 1) [1] 4294967296 =
        Except.error VirgilCryptoError.NotSecure := rfl
    rw [h2] at h
    cases h

/-- C12, amended: `derive(password, outputLength)` with `outputLength` above the maximum value of
an unsigned int always fails: with InvalidArgument when the recommendation checks are disabled or
satisfied (password and salt non-empty and iteration count not below the minimum), and with
NotSecure when the checks are enabled and not satisfied. -/
theorem derive_oversized (env : foundation.Mbedtls) (impl : VirgilPBKDF.Impl)
    (pwd : VirgilByteArray) (outSize : Nat) (h : outSize > UINT_MAX) :
    (impl.checkRecommendations = false ∨
        (pwd ≠ [] ∧ impl.salt ≠ [] ∧ impl.iterationCountMin ≤ impl.iterationCount) →
      VirgilPBKDF.derive env impl pwd outSize =
        Except.error VirgilCryptoError.InvalidArgument) ∧
    (impl.checkRecommendations = true ∧
        (pwd = [] ∨ impl.salt = [] ∨ impl.iterationCount < impl.iterationCountMin) →
      VirgilPBKDF.derive env impl pwd outSize = Except.error VirgilCryptoError.NotSecure) := by
  constructor
  · intro hok
    have hc : VirgilPBKDF.checkRecommendations impl pwd = Except.ok () := by
      cases hcr : VirgilPBKDF.checkRecommendations impl pwd with
      | ok u => rfl
      | error e =>
        exfalso
        have := (checkRecommendations_error_iff impl pwd e).1 hcr
        rcases hok with hoff | ⟨hp, hs, hi⟩
        · simp [hoff] at this
        · rcases this with ⟨_, _, h1 | h1 | h1⟩
          · exact hp h1
          · exact hs h1
          · omega
    simp [VirgilPBKDF.derive, hc, h]
  · intro hbad
    exact (derive_notSecure_iff_check env impl pwd outSize).2
      ((checkRecommendations_error_iff impl pwd _).2 ⟨rfl, hbad⟩)

theorem derive_oversized_witness :
    VirgilPBKDF.derive sampleMbedtls (VirgilPBKDF.create [1] 2048) [1] 4294967296 =
        Except.error VirgilCryptoError.InvalidArgument ∧
    VirgilPBKDF.derive sampleMbedtls (VirgilPBKDF.create [1] 1) [1] 4294967296 =
        Except.error VirgilCryptoError.NotSecure :=
  ⟨(derive_oversized sampleMbedtls (VirgilPBKDF.create [1] 2048) [1] 4294967296
      (by decide)).1 (Or.inr ⟨by decide, by decide, by decide⟩),
   (derive_oversized sampleMbedtls (VirgilPBKDF.create [1] 1) [1] 4294967296
      (by decide)).2 ⟨rfl, Or.inr (Or.inr (by decide))⟩⟩

theorem castToUnsigned_castToInt (n : Nat) (h : n < 2 ^ 32) :
    castToUnsigned (castToInt n) = n := by
  have hm : n % 2 ^ 32 = n := Nat.mod_eq_of_lt h
  unfold castToUnsigned castToInt
  rw [hm]
  norm_num at h ⊢
  split <;> omega

theorem md_type_to_hash_hash_to_md_type (hash : VirgilHash.Algorithm) :
    internal.md_type_to_hash (internal.hash_to_md_type hash) = Except.ok hash := by
  cases hash <;> rfl

theorem md_type_to_hash_ok (md : mbedtls_md_type_t) (hash : VirgilHash.Algorithm)
    (h : internal.md_type_to_hash md = Except.ok hash) : md = internal.hash_to_md_type hash := by
  cases md <;> simp [internal.md_type_to_hash] at h <;> subst h <;> rfl

theorem md_type_to_hash_error (md : mbedtls_md_type_t) (e : VirgilCryptoError)
    (h : internal.md_type_to_hash md = Except.error e) :
    e = VirgilCryptoError.UnsupportedAlgorithm := by
  cases md <;> simp [internal.md_type_to_hash] at h <;> exact h.symm

/-- C13: for an iteration count representable as unsigned int, values above `2^31 - 1` included,
and a hash whose object identifier the mbedTLS tables map back to it, `asn1Write` succeeds and
puts before what the writer held, from front to back, a sequence header, the PBKDF2 identifier,
a sequence header, the salt, the iteration count cast to `int`, a sequence header and the PRF
identifier, which is the order `asn1Read` consumes and the reverse of the order of the writes;
`asn1Read` of these elements into any instance succeeds and gives the same salt, iteration
count, hash algorithm and algorithm, leaving to the reader what the writer held before. -/
theorem asn1Write_asn1Read_roundtrip (enc : Encoding) (impl other : VirgilPBKDF.Impl)
    (writer : asn1.VirgilAsn1Writer) (childWrittenBytes : Nat) (prf : VirgilByteArray)
    (hcount : impl.iterationCount < 2 ^ 32)
    (hoid : enc.mbedtls_oid_get_oid_by_md (internal.hash_to_md_type impl.hashAlgorithm) =
      some prf)
    (hinv : enc.mbedtls_oid_get_md_alg prf =
      some (internal.hash_to_md_type impl.hashAlgorithm)) :
    (∃ l1 l2 l3 total,
      VirgilPBKDF.asn1Write enc impl writer childWrittenBytes =
        ({ elements :=
            asn1.Asn1Element.sequence l1 :: asn1.Asn1Element.oid MBEDTLS_OID_PKCS5_PBKDF2 ::
            asn1.Asn1Element.sequence l2 :: asn1.Asn1Element.octetString impl.salt ::
            asn1.Asn1Element.integer (castToInt impl.iterationCount) ::
            asn1.Asn1Element.sequence l3 :: asn1.Asn1Element.oid prf :: writer.elements },
         Except.ok total)) ∧
    (VirgilPBKDF.asn1Read enc other
        { elements := (VirgilPBKDF.asn1Write enc impl writer childWrittenBytes).1.elements }).2 =
      Except.ok () ∧
    (VirgilPBKDF.asn1Read enc other
        { elements := (VirgilPBKDF.asn1Write enc impl writer childWrittenBytes).1.elements }).1 =
      ({ other with
          salt := impl.salt
          iterationCount := impl.iterationCount
          algorithm := impl.algorithm
          hashAlgorithm := impl.hashAlgorithm },
       { elements := writer.elements }) := by
  have halg : impl.algorithm = VirgilPBKDF.Algorithm.PBKDF2 := by cases impl.algorithm; rfl
  have hw : VirgilPBKDF.asn1Write enc impl writer childWrittenBytes =
      ({ elements :=
          asn1.Asn1Element.sequence
              (enc.encodedSize (asn1.Asn1Element.oid prf) +
                enc.encodedSize (asn1.Asn1Element.sequence
                  (enc.encodedSize (asn1.Asn1Element.oid prf))) +
                enc.encodedSize (asn1.Asn1Element.integer (castToInt impl.iterationCount)) +
                enc.encodedSize (asn1.Asn1Element.octetString impl.salt) +
                enc.encodedSize (asn1.Asn1Element.sequence
                  (enc.encodedSize (asn1.Asn1Element.oid prf) +
                    enc.encodedSize (asn1.Asn1Element.sequence
                      (enc.encodedSize (asn1.Asn1Element.oid prf))) +
                    enc.encodedSize (asn1.Asn1Element.integer (castToInt impl.iterationCount)) +
                    enc.encodedSize (asn1.Asn1Element.octetString impl.salt))) +
                enc.encodedSize (asn1.Asn1Element.oid MBEDTLS_OID_PKCS5_PBKDF2)) ::
          asn1.Asn1Element.oid MBEDTLS_OID_PKCS5_PBKDF2 ::
          asn1.Asn1Element.sequence
              (enc.encodedSize (asn1.Asn1Element.oid prf) +
                enc.encodedSize (asn1.Asn1Element.sequence
                  (enc.encodedSize (asn1.Asn1Element.oid prf))) +
                enc.encodedSize (asn1.Asn1Element.integer (castToInt impl.iterationCount)) +
                enc.encodedSize (asn1.Asn1Element.octetString impl.salt)) ::
          asn1.Asn1Element.octetString impl.salt ::
          asn1.Asn1Element.integer (castToInt impl.iterationCount) ::
          asn1.Asn1Element.sequence (enc.encodedSize (asn1.Asn1Element.oid prf)) ::
          asn1.Asn1Element.oid prf :: writer.elements },
       Except.ok
        ((VirgilPBKDF.asn1Write enc impl writer childWrittenBytes).2.toOption.getD 0)) := by
    simp [VirgilPBKDF.asn1Write, halg, hoid, asn1.VirgilAsn1Writer.writeOID,
      asn1.VirgilAsn1Writer.writeSequence, asn1.VirgilAsn1Writer.writeInteger,
      asn1.VirgilAsn1Writer.writeOctetString, asn1.VirgilAsn1Writer.write, Except.toOption]
  refine ⟨⟨_, _, _, _, hw⟩, ?_⟩
  rw [hw]
  simp [VirgilPBKDF.asn1Read, VirgilPBKDF.readParams, VirgilPBKDF.assignAlgorithms,
    asn1.VirgilAsn1Reader.readSequence, asn1.VirgilAsn1Reader.readOID,
    asn1.VirgilAsn1Reader.readInteger, asn1.VirgilAsn1Reader.readOctetString, hinv,
    md_type_to_hash_hash_to_md_type, castToUnsigned_castToInt _ hcount, halg]

theorem asn1Write_asn1Read_roundtrip_witness :
    (VirgilPBKDF.asn1Write sampleEncoding samplePBKDF { elements := [] } 0).1.elements =
      [asn1.Asn1Element.sequence 36, asn1.Asn1Element.oid MBEDTLS_OID_PKCS5_PBKDF2,
        asn1.Asn1Element.sequence 23, asn1.Asn1Element.octetString [1, 2],
        asn1.Asn1Element.integer (-1294967296), asn1.Asn1Element.sequence 11,
        asn1.Asn1Element.oid [0x60, 0x86, 0x48, 0x01, 0x65, 0x03, 0x04, 0x02, 0x03]] ∧
    (VirgilPBKDF.asn1Read sampleEncoding VirgilPBKDF.createDefault
        { elements :=
            (VirgilPBKDF.asn1Write sampleEncoding samplePBKDF { elements := [] } 0).1.elements }).1 =
      (samplePBKDF, { elements := [] }) :=
  ⟨by decide,
   (asn1Write_asn1Read_roundtrip sampleEncoding samplePBKDF VirgilPBKDF.createDefault
      { elements := [] } 0 [0x60, 0x86, 0x48, 0x01, 0x65, 0x03, 0x04, 0x02, 0x03]
      (by decide) rfl (by decide)).2.2⟩

/-- C14: `asn1Read` of an input that starts with a sequence header and a key-derivation object
identifier other than the PBKDF2 identifier fails with UnsupportedAlgorithm; so does `asn1Read`
of an input with the PBKDF2 identifier, a salt, an iteration count and a PRF object identifier
that mbedTLS maps to none of the six digests MD5, SHA1, SHA224, SHA256, SHA384, SHA512, whether
mbedTLS does not know the identifier or maps it to another digest. -/
theorem asn1Read_unsupported (enc : Encoding) (impl : VirgilPBKDF.Impl)
    (l1 l2 l3 : Nat) (kdf prf salt : VirgilByteArray) (count : Int)
    (rest : List asn1.Asn1Element) :
    (kdf ≠ MBEDTLS_OID_PKCS5_PBKDF2 →
      (VirgilPBKDF.asn1Read enc impl
        { elements := asn1.Asn1Element.sequence l1 :: asn1.Asn1Element.oid kdf :: rest }).2 =
        Except.error VirgilCryptoError.UnsupportedAlgorithm) ∧
    ((∀ hash : VirgilHash.Algorithm,
        enc.mbedtls_oid_get_md_alg prf ≠ some (internal.hash_to_md_type hash)) →
      (VirgilPBKDF.asn1Read enc impl
        { elements :=
            asn1.Asn1Element.sequence l1 :: asn1.Asn1Element.oid MBEDTLS_OID_PKCS5_PBKDF2 ::
            asn1.Asn1Element.sequence l2 :: asn1.Asn1Element.octetString salt ::
            asn1.Asn1Element.integer count :: asn1.Asn1Element.sequence l3 ::
            asn1.Asn1Element.oid prf :: rest }).2 =
        Except.error VirgilCryptoError.UnsupportedAlgorithm) := by
  constructor
  · intro hkdf
    simp [VirgilPBKDF.asn1Read, asn1.VirgilAsn1Reader.readSequence,
      asn1.VirgilAsn1Reader.readOID, hkdf]
  · intro hprf
    simp only [VirgilPBKDF.asn1Read, VirgilPBKDF.readParams, asn1.VirgilAsn1Reader.readSequence,
      asn1.VirgilAsn1Reader.readOID, asn1.VirgilAsn1Reader.readInteger,
      asn1.VirgilAsn1Reader.readOctetString, bne_self_eq_false, Bool.false_eq_true, if_false]
    cases hmd : enc.mbedtls_oid_get_md_alg prf with
    | none => rfl
    | some md =>
      simp only [VirgilPBKDF.assignAlgorithms]
      cases hh : internal.md_type_to_hash md with
      | error e => simp [md_type_to_hash_error md e hh]
      | ok hash =>
        exfalso
        apply hprf hash
        rw [hmd, md_type_to_hash_ok md hash hh]

theorem asn1Read_unsupported_witness :
    (VirgilPBKDF.asn1Read sampleEncoding samplePBKDF
        { elements := [asn1.Asn1Element.sequence 5, asn1.Asn1Element.oid [1, 2, 3]] }).2 =
      Except.error VirgilCryptoError.UnsupportedAlgorithm ∧
    (VirgilPBKDF.asn1Read sampleEncoding samplePBKDF
        { elements :=
            [asn1.Asn1Element.sequence 36, asn1.Asn1Element.oid MBEDTLS_OID_PKCS5_PBKDF2,
              asn1.Asn1Element.sequence 23, asn1.Asn1Element.octetString [1, 2],
              asn1.Asn1Element.integer 4096, asn1.Asn1Element.sequence 7,
              asn1.Asn1Element.oid [0x2b, 0x24, 0x03, 0x02, 0x01]] }).2 =
      Except.error VirgilCryptoError.UnsupportedAlgorithm :=
  ⟨(asn1Read_unsupported sampleEncoding samplePBKDF 5 0 0 [1, 2, 3] [] [] 0 []).1 (by decide),
   (asn1Read_unsupported sampleEncoding samplePBKDF 36 23 7 [] [0x2b, 0x24, 0x03, 0x02, 0x01]
      [1, 2] 4096 []).2 (by intro hash; cases hash <;> decide)⟩

/-! ## The cipher session: clearing -/

/-- C16: after `clear()` the content key, the stored private key, the stored password and the
stored recipient id are empty, `isInited()` is false and the filter is the initial filter; when
`clear()` releases the three secret buffers, each of them holds zeros over the whole length of
the secret it held, the secrets having been overwritten before the release; `clear()` applied
twice gives the state `clear()` gives and releases nothing but empty buffers the second time,
and `clear()` is a total function of the state, so it never fails. -/
theorem clear_contract (s : VirgilCipherBase.Impl) :
    (clear s).symmetricCipherKey = [] ∧ (clear s).privateKey = [] ∧ (clear s).pwd = [] ∧
    (clear s).recipientId = [] ∧ isInited (clear s) = false ∧
    (clear s).contentInfoFilter = VirgilContentInfoFilter.create ∧
    (clearReleasing s).2 =
      { symmetricCipherKey := List.replicate s.symmetricCipherKey.length 0
        privateKey := List.replicate s.privateKey.length 0
        pwd := List.replicate s.pwd.length 0 } ∧
    clear (clear s) = clear s ∧
    (clearReleasing (clear s)).2 = { symmetricCipherKey := [], privateKey := [], pwd := [] } := by
  have hz : ∀ l : VirgilByteArray, zeroize l = List.replicate l.length 0 := by
    intro l
    induction l with
    | nil => rfl
    | cons a l ih =>
      simp only [zeroize, List.map_cons, List.length_cons, List.replicate_succ] at ih ⊢
      rw [ih]
  refine ⟨rfl, rfl, rfl, rfl, rfl, rfl, ?_, rfl, rfl⟩
  simp only [clearReleasing, hz]

theorem clear_contract_witness :
    (clearReleasing staleKeySession).2 =
      { symmetricCipherKey := [], privateKey := [0], pwd := [0] } ∧
    (clearReleasing sampleSenderInited).2.symmetricCipherKey = List.replicate 32 0 ∧
    (clear staleKeySession).privateKey = [] ∧ (clear staleKeySession).recipientId = [] ∧
    clear (clear staleKeySession) = clear staleKeySession :=
  ⟨(clear_contract staleKeySession).2.2.2.2.2.2.1,
   congrArg Released.symmetricCipherKey (clear_contract sampleSenderInited).2.2.2.2.2.2.1,
   (clear_contract staleKeySession).2.1,
   (clear_contract staleKeySession).2.2.2.1,
   (clear_contract staleKeySession).2.2.2.2.2.2.2.1⟩

/-- C17, refuted as stated: after `clear()` the session that held the metadata
`sampleContentInfo` still holds its key recipient, its password recipient and its
content-encryption algorithm, and the metadata is still ready for decryption. -/
theorem clear_keeps_contentInfo_example :
    ¬ ((clear sampleSession).contentInfo.keyRecipients = [] ∧
        (clear sampleSession).contentInfo.passwordRecipients = [] ∧
        (clear sampleSession).contentInfo.contentEncryptionAlgorithm = []) ∧
    (clear sampleSession).contentInfo.isReadyForDecryption = true := by
  decide

/-- C17, amended: `clear()` leaves the session's metadata exactly as it was: the key recipients,
the password recipients and the content-encryption algorithm after `clear()` are those before
it, so the metadata is ready for decryption after `clear()` if and only if it was before, and
`getContentInfo()` returns what it returned before. -/
theorem clear_keeps_contentInfo (s : VirgilCipherBase.Impl)
    (toAsn1 : VirgilContentInfo → VirgilByteArray) :
    (clear s).contentInfo = s.contentInfo ∧
    (clear s).contentInfo.keyRecipients = s.contentInfo.keyRecipients ∧
    (clear s).contentInfo.passwordRecipients = s.contentInfo.passwordRecipients ∧
    (clear s).contentInfo.contentEncryptionAlgorithm = s.contentInfo.contentEncryptionAlgorithm ∧
    (clear s).contentInfo.isReadyForDecryption = s.contentInfo.isReadyForDecryption ∧
    getContentInfo toAsn1 (clear s) = getContentInfo toAsn1 s :=
  ⟨rfl, rfl, rfl, rfl, rfl, rfl⟩

/-! ## The default iteration count of the password cipher -/

/-- C20, refuted as stated: the default iteration count of `VirgilPBE::pkcs5` and
`VirgilPBE::pkcs12` is `kIterationCountMin = 1024`, which is not greater than or equal to the
default minimum `kIterationCount_Min = 2048` of the key derivation, and a key derivation with
that count, the non-empty salt `[1]` and the non-empty password `[1]` fails the recommendation
check with NotSecure. -/
theorem pbe_default_iterationCount_below_minimum :
    (VirgilPBE.pkcs5Default [1]).iterationCount = 1024 ∧
    (VirgilPBE.pkcs12Default [1]).iterationCount = 1024 ∧
    (VirgilPBKDF.create [1] (VirgilPBE.pkcs5Default [1]).iterationCount).iterationCountMin =
      2048 ∧
    ¬ (VirgilPBE.kIterationCountMin ≥ kIterationCount_Min) ∧
    VirgilPBKDF.checkRecommendations
        (VirgilPBKDF.create [1] (VirgilPBE.pkcs5Default [1]).iterationCount) [1] =
      Except.error VirgilCryptoError.NotSecure ∧
    VirgilPBKDF.checkRecommendations
        (VirgilPBKDF.create [1] (VirgilPBE.pkcs12Default [1]).iterationCount) [1] =
      Except.error VirgilCryptoError.NotSecure ∧
    VirgilPBKDF.derive sampleMbedtls
        (VirgilPBKDF.create [1] (VirgilPBE.pkcs5Default [1]).iterationCount) [1] 32 =
      Except.error VirgilCryptoError.NotSecure := by
  refine ⟨rfl, rfl, rfl, by decide, rfl, rfl, rfl⟩

/-- C20, amended: the default iteration count of `VirgilPBE::pkcs5` and `VirgilPBE::pkcs12` is
`kIterationCountMin = 1024`, which is below the default minimum `kIterationCount_Min = 2048` of
the key derivation. A key derivation constructed with that count, a non-empty salt and a
non-empty password fails the recommendation check with NotSecure; it passes the check once the
checks are disabled, and on an instance with the checks enabled and a non-empty salt the count
1024 passes exactly when the configured minimum is at most 1024. Every count of at least 3072,
the least `buildContentInfo` passes to `VirgilPBE`, passes the check of a newly constructed
key derivation. -/
theorem pbe_default_iterationCount_not_recommended (salt pbeSalt pwd : VirgilByteArray)
    (hsalt : salt ≠ []) (hpwd : pwd ≠ []) :
    (VirgilPBE.pkcs5Default pbeSalt).iterationCount = 1024 ∧
    (VirgilPBE.pkcs12Default pbeSalt).iterationCount = 1024 ∧
    VirgilPBE.kIterationCountMin < kIterationCount_Min ∧
    VirgilPBKDF.checkRecommendations
        (VirgilPBKDF.create salt (VirgilPBE.pkcs5Default pbeSalt).iterationCount) pwd =
      Except.error VirgilCryptoError.NotSecure ∧
    VirgilPBKDF.checkRecommendations
        (VirgilPBKDF.create salt (VirgilPBE.pkcs12Default pbeSalt).iterationCount) pwd =
      Except.error VirgilCryptoError.NotSecure ∧
    VirgilPBKDF.checkRecommendations
        (VirgilPBKDF.disableRecommendationsCheck
          (VirgilPBKDF.create salt (VirgilPBE.pkcs5Default pbeSalt).iterationCount)) pwd =
      Except.ok () ∧
    (∀ impl : VirgilPBKDF.Impl, impl.checkRecommendations = true → impl.salt ≠ [] →
      (VirgilPBKDF.checkRecommendations
          { impl with iterationCount := VirgilPBE.kIterationCountMin } pwd = Except.ok () ↔
        impl.iterationCountMin ≤ 1024)) ∧
    (∀ count : Nat, 3072 ≤ count →
      VirgilPBKDF.checkRecommendations (VirgilPBKDF.create salt count) pwd = Except.ok ()) := by
  refine ⟨rfl, rfl, by decide, ?_, ?_, ?_, ?_, ?_⟩
  · exact (checkRecommendations_error_iff _ pwd _).2
      ⟨rfl, rfl, Or.inr (Or.inr (show (1024 : Nat) < 2048 by decide))⟩
  · exact (checkRecommendations_error_iff _ pwd _).2
      ⟨rfl, rfl, Or.inr (Or.inr (show (1024 : Nat) < 2048 by decide))⟩
  · simp [VirgilPBKDF.checkRecommendations, VirgilPBKDF.disableRecommendationsCheck]
  · intro impl hon hs
    simp [VirgilPBKDF.checkRecommendations, hon, hpwd, hs, VirgilPBE.kIterationCountMin]
  · intro count hcount
    have hmin : ¬ count < 2048 := by omega
    simp [VirgilPBKDF.checkRecommendations, VirgilPBKDF.create, hpwd, hsalt,
      kIterationCount_Min, hmin]

theorem pbe_default_iterationCount_not_recommended_witness :
    VirgilPBKDF.checkRecommendations
        (VirgilPBKDF.create [4, 5] (VirgilPBE.pkcs5Default [6]).iterationCount) [7] =
      Except.error VirgilCryptoError.NotSecure ∧
    VirgilPBKDF.checkRecommendations (VirgilPBKDF.create [4, 5] 3072) [7] = Except.ok () :=
  ⟨(pbe_default_iterationCount_not_recommended [4, 5] [6] [7] (by decide) (by decide)).2.2.2.1,
   (pbe_default_iterationCount_not_recommended [4, 5] [6] [7] (by decide)
      (by decide)).2.2.2.2.2.2.2 3072 (by decide)⟩

/-! ## The cipher session: building the metadata -/

theorem passwordCipher_random (prim : Primitives) (r : VirgilRandom) :
    (passwordCipher prim r).2 = { r with draws := r.draws + 2 } := rfl

theorem recipientCipher_zero (prim : Primitives) (r : VirgilRandom) :
    recipientCipher prim r 0 = (passwordCipher prim r).1 := rfl

theorem recipientCipher_bounds (prim : Primitives) (r : VirgilRandom) (i : Nat) :
    (recipientCipher prim r i).algorithm = VirgilPBE.Algorithm.PKCS5 ∧
    (recipientCipher prim r i).salt.length = 16 ∧
    3072 ≤ (recipientCipher prim r i).iterationCount ∧
    (recipientCipher prim r i).iterationCount ≤ 8192 := by
  refine ⟨rfl, ?_, ?_, ?_⟩
  · simp [recipientCipher, passwordCipher, VirgilRandom.randomize]
  · simp [recipientCipher, passwordCipher, VirgilRandom.randomizeBetween]
  · simp only [recipientCipher, passwordCipher, VirgilRandom.randomizeBetween,
      VirgilRandom.randomize]
    have := Nat.mod_lt (prim.entropy r.personalInfo (r.draws + 2 * i + 1) 0)
      (show 0 < 8192 - 3072 + 1 by norm_num)
    omega

theorem wrapPasswordRecipients_entries (prim : Primitives) (key : VirgilByteArray) :
    ∀ (passwords : List VirgilByteArray) (r r' : VirgilRandom)
      (entries : List PasswordRecipient),
      VirgilContentInfo.wrapPasswordRecipients (passwordWrap prim key) r passwords =
        (r', Except.ok entries) →
      r' = { r with draws := r.draws + 2 * passwords.length } ∧
      entries.length = passwords.length ∧
      ∀ (i : Nat) (password : VirgilByteArray), passwords[i]? = some password →
        ∃ encryptedKey,
          prim.pbeEncrypt (recipientCipher prim r i) key password = Except.ok encryptedKey ∧
          entries[i]? =
            some { keyEncryptionAlgorithm := prim.pbeToAsn1 (recipientCipher prim r i),
                   encryptedKey := encryptedKey } := by
  intro passwords
  induction passwords with
  | nil =>
    intro r r' entries h
    simp only [VirgilContentInfo.wrapPasswordRecipients, Prod.mk.injEq, Except.ok.injEq] at h
    obtain ⟨hr, he⟩ := h
    subst hr he
    exact ⟨rfl, rfl, by simp⟩
  | cons p rest ih =>
    intro r r' entries h
    unfold VirgilContentInfo.wrapPasswordRecipients at h
    cases henc : prim.pbeEncrypt (passwordCipher prim r).1 key p with
    | error e => simp [passwordWrap, henc] at h
    | ok encrypted =>
      simp only [passwordWrap, henc, passwordCipher_random] at h
      cases hrest : VirgilContentInfo.wrapPasswordRecipients (passwordWrap prim key)
          { r with draws := r.draws + 2 } rest with
      | mk r2 res =>
        cases res with
        | error e => simp [hrest] at h
        | ok more =>
          simp only [hrest, Prod.mk.injEq, Except.ok.injEq] at h
          obtain ⟨hr, he⟩ := h
          subst hr he
          obtain ⟨hr2, hlen, hget⟩ := ih _ _ _ hrest
          refine ⟨?_, by simp [hlen], ?_⟩
          · rw [hr2]
            simp only [List.length_cons, VirgilRandom.mk.injEq, true_and]
            omega
          · intro i password hi
            cases i with
            | zero =>
              simp only [List.getElem?_cons_zero, Option.some.injEq] at hi
              subst hi
              rw [recipientCipher_zero]
              exact ⟨encrypted, henc, by simp⟩
            | succ j =>
              simp only [List.getElem?_cons_succ] at hi ⊢
              obtain ⟨encryptedKey, h1, h2⟩ := hget j password hi
              have hc : recipientCipher prim { r with draws := r.draws + 2 } j =
                  recipientCipher prim r (j + 1) := by
                simp only [recipientCipher]
                congr 2
                simp only [VirgilRandom.mk.injEq, true_and]
                omega
              rw [hc] at h1 h2
              exact ⟨encryptedKey, h1, h2⟩

/-- C15: when `buildContentInfo()` succeeds, for the password recipient at every position `i` of
the registered passwords the password cipher is the one drawn for that position, two draws of
the generator after the cipher of the recipient before it: a PKCS5 cipher with a salt of exactly
16 octets and an iteration count between 3072 and 8192 inclusive. The entry stored for the
recipient, after the entries the metadata already had, holds the serialization of that cipher
as key-encryption algorithm and the session content key encrypted by that cipher under the
recipient's password. Afterwards the content-encryption algorithm of the metadata is the
serialization of the session's symmetric cipher, which is unchanged like the content key, and
the generator has made two draws for each password recipient. -/
theorem buildContentInfo_password_recipients (prim : Primitives)
    (s s' : VirgilCipherBase.Impl) (h : buildContentInfo prim s = (s', Except.ok ())) :
    (∀ (i : Nat) (password : VirgilByteArray), s.contentInfo.passwords[i]? = some password →
      (recipientCipher prim s.random i).algorithm = VirgilPBE.Algorithm.PKCS5 ∧
      (recipientCipher prim s.random i).salt.length = 16 ∧
      3072 ≤ (recipientCipher prim s.random i).iterationCount ∧
      (recipientCipher prim s.random i).iterationCount ≤ 8192 ∧
      ∃ encryptedKey,
        prim.pbeEncrypt (recipientCipher prim s.random i) s.symmetricCipherKey password =
          Except.ok encryptedKey ∧
        s'.contentInfo.passwordRecipients[s.contentInfo.passwordRecipients.length + i]? =
          some { keyEncryptionAlgorithm := prim.pbeToAsn1 (recipientCipher prim s.random i),
                 encryptedKey := encryptedKey }) ∧
    s'.contentInfo.passwordRecipients.length =
      s.contentInfo.passwordRecipients.length + s.contentInfo.passwords.length ∧
    s'.contentInfo.passwordRecipients.take s.contentInfo.passwordRecipients.length =
      s.contentInfo.passwordRecipients ∧
    s'.contentInfo.contentEncryptionAlgorithm = s.symmetricCipher.toAsn1 ∧
    s'.symmetricCipher = s.symmetricCipher ∧
    s'.symmetricCipherKey = s.symmetricCipherKey ∧
    s'.random = { s.random with draws := s.random.draws + 2 * s.contentInfo.passwords.length } := by
  unfold buildContentInfo at h
  cases hk : VirgilContentInfo.wrapKeyRecipients (keyWrap prim s.symmetricCipherKey)
      s.contentInfo.publicKeys with
  | error e => simp [VirgilContentInfo.encryptKeyRecipients, hk] at h
  | ok wrappedKeys =>
    simp only [VirgilContentInfo.encryptKeyRecipients, hk,
      VirgilContentInfo.encryptPasswordRecipients] at h
    cases hp : VirgilContentInfo.wrapPasswordRecipients (passwordWrap prim s.symmetricCipherKey)
        s.random s.contentInfo.passwords with
    | mk r2 res =>
      cases res with
      | error e => simp [hp] at h
      | ok entries =>
        simp only [hp, Prod.mk.injEq, and_true] at h
        subst h
        obtain ⟨hr2, hlen, hget⟩ := wrapPasswordRecipients_entries prim _ _ _ _ _ hp
        refine ⟨?_, ?_, ?_, rfl, rfl, rfl, hr2⟩
        · intro i password hi
          obtain ⟨hb1, hb2, hb3, hb4⟩ := recipientCipher_bounds prim s.random i
          refine ⟨hb1, hb2, hb3, hb4, ?_⟩
          obtain ⟨encryptedKey, h1, h2⟩ := hget i password hi
          refine ⟨encryptedKey, h1, ?_⟩
          simp only [VirgilContentInfo.setContentEncryptionAlgorithm]
          rw [List.getElem?_append_right (by omega)]
          simpa using h2
        · simp [VirgilContentInfo.setContentEncryptionAlgorithm, hlen]
        · simp [VirgilContentInfo.setContentEncryptionAlgorithm]

theorem buildContentInfo_password_recipients_witness :
    buildContentInfo samplePrimitives sampleSenderInited = (sampleSenderBuilt, Except.ok ()) ∧
    recipientCipher samplePrimitives sampleSenderInited.random 1 =
      { algorithm := VirgilPBE.Algorithm.PKCS5
        salt := [149, 150, 151, 152, 153, 154, 155, 156, 157, 158, 159, 160, 161, 162, 163, 164]
        iterationCount := 3258 } ∧
    sampleSenderBuilt.contentInfo.passwordRecipients.length = 2 ∧
    sampleSenderBuilt.contentInfo.contentEncryptionAlgorithm =
      sampleSenderInited.symmetricCipher.toAsn1 :=
  ⟨rfl, by decide,
   (buildContentInfo_password_recipients samplePrimitives sampleSenderInited sampleSenderBuilt
      rfl).2.1,
   (buildContentInfo_password_recipients samplePrimitives sampleSenderInited sampleSenderBuilt
      rfl).2.2.2.1⟩

/-! ## The envelope round trip -/

set_option maxRecDepth 20000

/-- C21: on the six algorithms of `VirgilHash::Algorithm`, `md_type_to_hash` after
`hash_to_md_type` returns the algorithm without error, and whenever `md_type_to_hash` succeeds
its argument is the image of its result; `hash_to_md_type` is injective; and `md_type_to_hash`
fails with UnsupportedAlgorithm for every digest type outside the image of `hash_to_md_type`,
`MBEDTLS_MD_NONE` among them. -/
theorem hash_md_type_inverse :
    (∀ hash : VirgilHash.Algorithm,
      internal.md_type_to_hash (internal.hash_to_md_type hash) = Except.ok hash) ∧
    (∀ (md : mbedtls_md_type_t) (hash : VirgilHash.Algorithm),
      internal.md_type_to_hash md = Except.ok hash → md = internal.hash_to_md_type hash) ∧
    Function.Injective internal.hash_to_md_type ∧
    (∀ md : mbedtls_md_type_t,
      (∀ hash : VirgilHash.Algorithm, md ≠ internal.hash_to_md_type hash) →
      internal.md_type_to_hash md = Except.error VirgilCryptoError.UnsupportedAlgorithm) ∧
    internal.md_type_to_hash mbedtls_md_type_t.MBEDTLS_MD_NONE =
      Except.error VirgilCryptoError.UnsupportedAlgorithm := by
  refine ⟨md_type_to_hash_hash_to_md_type, md_type_to_hash_ok, ?_, ?_, rfl⟩
  · intro a b hab
    have ha := md_type_to_hash_hash_to_md_type a
    rw [hab, md_type_to_hash_hash_to_md_type b] at ha
    exact (Except.ok.inj ha).symm
  · intro md hout
    cases hm : internal.md_type_to_hash md with
    | error e => rw [md_type_to_hash_error md e hm]
    | ok hash => exact absurd (md_type_to_hash_ok md hash hm) (hout hash)

theorem hash_md_type_inverse_witness :
    internal.md_type_to_hash (internal.hash_to_md_type VirgilHash.Algorithm.SHA384) =
        Except.ok VirgilHash.Algorithm.SHA384 ∧
    internal.md_type_to_hash mbedtls_md_type_t.MBEDTLS_MD_RIPEMD160 =
        Except.error VirgilCryptoError.UnsupportedAlgorithm :=
  ⟨hash_md_type_inverse.1 VirgilHash.Algorithm.SHA384,
   hash_md_type_inverse.2.2.2.1 mbedtls_md_type_t.MBEDTLS_MD_RIPEMD160
     (by intro hash; cases hash <;> decide)⟩

/-- C22: if `asn1Read` fails because the key-derivation object identifier is not the PBKDF2
identifier, it fails with UnsupportedAlgorithm and the instance is exactly as it was. For an
input with the PBKDF2 identifier, a salt, an iteration count and a PRF object identifier that
mbedTLS maps to none of the six digests, `asn1Read` fails with UnsupportedAlgorithm after it
has replaced the salt and the iteration count of the instance by those of the input, while
`algorithm`, `hashAlgorithm` and the two settings of the recommendation check keep their
previous values. -/
theorem asn1Read_atomicity (enc : Encoding) (impl : VirgilPBKDF.Impl)
    (l1 l2 l3 : Nat) (kdf prf salt : VirgilByteArray) (count : Int)
    (rest : List asn1.Asn1Element) :
    (kdf ≠ MBEDTLS_OID_PKCS5_PBKDF2 →
      (VirgilPBKDF.asn1Read enc impl
        { elements := asn1.Asn1Element.sequence l1 :: asn1.Asn1Element.oid kdf :: rest }).2 =
        Except.error VirgilCryptoError.UnsupportedAlgorithm ∧
      (VirgilPBKDF.asn1Read enc impl
        { elements := asn1.Asn1Element.sequence l1 :: asn1.Asn1Element.oid kdf :: rest }).1.1 =
        impl) ∧
    ((∀ hash : VirgilHash.Algorithm,
        enc.mbedtls_oid_get_md_alg prf ≠ some (internal.hash_to_md_type hash)) →
      (VirgilPBKDF.asn1Read enc impl
        { elements :=
            asn1.Asn1Element.sequence l1 :: asn1.Asn1Element.oid MBEDTLS_OID_PKCS5_PBKDF2 ::
            asn1.Asn1Element.sequence l2 :: asn1.Asn1Element.octetString salt ::
            asn1.Asn1Element.integer count :: asn1.Asn1Element.sequence l3 ::
            asn1.Asn1Element.oid prf :: rest }).2 =
        Except.error VirgilCryptoError.UnsupportedAlgorithm ∧
      (VirgilPBKDF.asn1Read enc impl
        { elements :=
            asn1.Asn1Element.sequence l1 :: asn1.Asn1Element.oid MBEDTLS_OID_PKCS5_PBKDF2 ::
            asn1.Asn1Element.sequence l2 :: asn1.Asn1Element.octetString salt ::
            asn1.Asn1Element.integer count :: asn1.Asn1Element.sequence l3 ::
            asn1.Asn1Element.oid prf :: rest }).1.1 =
        { impl with salt := salt, iterationCount := castToUnsigned count }) := by
  constructor
  · intro hkdf
    simp [VirgilPBKDF.asn1Read, asn1.VirgilAsn1Reader.readSequence,
      asn1.VirgilAsn1Reader.readOID, hkdf]
  · intro hprf
    simp only [VirgilPBKDF.asn1Read, VirgilPBKDF.readParams, asn1.VirgilAsn1Reader.readSequence,
      asn1.VirgilAsn1Reader.readOID, asn1.VirgilAsn1Reader.readInteger,
      asn1.VirgilAsn1Reader.readOctetString, bne_self_eq_false, Bool.false_eq_true, if_false]
    cases hmd : enc.mbedtls_oid_get_md_alg prf with
    | none => exact ⟨rfl, rfl⟩
    | some md =>
      simp only [VirgilPBKDF.assignAlgorithms]
      cases hh : internal.md_type_to_hash md with
      | error e =>
        refine ⟨by simp [md_type_to_hash_error md e hh], ?_⟩
        cases halg : impl.algorithm
        simp [halg]
      | ok hash =>
        exfalso
        apply hprf hash
        rw [hmd, md_type_to_hash_ok md hash hh]

theorem asn1Read_atomicity_witness :
    (VirgilPBKDF.asn1Read sampleEncoding samplePBKDF
        { elements := [asn1.Asn1Element.sequence 5, asn1.Asn1Element.oid [1, 2, 3]] }).1.1 =
      samplePBKDF ∧
    (VirgilPBKDF.asn1Read sampleEncoding samplePBKDF
        { elements :=
            [asn1.Asn1Element.sequence 36, asn1.Asn1Element.oid MBEDTLS_OID_PKCS5_PBKDF2,
              asn1.Asn1Element.sequence 23, asn1.Asn1Element.octetString [9],
              asn1.Asn1Element.integer 4096, asn1.Asn1Element.sequence 7,
              asn1.Asn1Element.oid [0x2b, 0x24, 0x03, 0x02, 0x01]] }).2 =
      Except.error VirgilCryptoError.UnsupportedAlgorithm ∧
    (VirgilPBKDF.asn1Read sampleEncoding samplePBKDF
        { elements :=
            [asn1.Asn1Element.sequence 36, asn1.Asn1Element.oid MBEDTLS_OID_PKCS5_PBKDF2,
              asn1.Asn1Element.sequence 23, asn1.Asn1Element.octetString [9],
              asn1.Asn1Element.integer 4096, asn1.Asn1Element.sequence 7,
              asn1.Asn1Element.oid [0x2b, 0x24, 0x03, 0x02, 0x01]] }).1.1 =
      { samplePBKDF with salt := [9], iterationCount := 4096 } :=
  ⟨((asn1Read_atomicity sampleEncoding samplePBKDF 5 0 0 [1, 2, 3] [] [] 0 []).1
      (by decide)).2,
   ((asn1Read_atomicity sampleEncoding samplePBKDF 36 23 7 [] [0x2b, 0x24, 0x03, 0x02, 0x01]
      [9] 4096 []).2 (by intro hash; cases hash <;> decide)).1,
   ((asn1Read_atomicity sampleEncoding samplePBKDF 36 23 7 [] [0x2b, 0x24, 0x03, 0x02, 0x01]
      [9] 4096 []).2 (by intro hash; cases hash <;> decide)).2⟩

end virgil.crypto
